import Mathlib

set_option maxHeartbeats 1000000

/-
Shallow embedding of the connection-handle layer of the gorm ORM
(src/main.go).  Handles (`*gormDB` in Go) are modelled as indices into a
heap (`St`); the per-handle condition set (`Search`), settings map,
callback registry and dialect live in their own heap segments so that
pointer sharing versus deep copying is represented faithfully.  Side
effects that leave the core (SQL execution, background logging, DDL,
callback-chain runs) are recorded on an event trace.  Parts of the
repository that are not in src/main.go (search.go, scope.go,
callbacks.go, errors.go) are modelled from the spec; each such
definition carries a doc comment saying so.
-/

/-- Go interface-typed values (the `interface\x7b\x7d` arguments of the API);
`vRec` stands for a struct value whose primary key is `pk`. -/
inductive GoValue where
  | vNil
  | vInt (n : Int)
  | vStr (s : String)
  | vBool (b : Bool)
  | vRec (pk : Int)
deriving DecidableEq

/-- Go error values reachable in the core: the distinguished sentinels of
errors.go plus opaque driver/user errors `generic n`. -/
inductive GoErr where
  | recordNotFound
  | invalidTransaction
  | cantStartTransaction
  | generic (n : Nat)
deriving DecidableEq

/-- The dynamic type of the value stored in the handle's `err` field: either a
plain single error or the aggregate `Errors` slice value. -/
inductive ErrVal where
  | single (e : GoErr)
  | agg (es : List GoErr)
deriving DecidableEq

/-- The underlying connection stored in the handle's `db` field: a plain
`sql.DB`, a non-nil transaction handle, a typed-nil `*sql.Tx`
(`emptySQLTx` in the source) or an interface-nil. -/
inductive Conn where
  | plainDB (id : Nat)
  | txConn (id : Nat)
  | nilTx
  | noConn
deriving DecidableEq

/-- Kinds of tagged condition fragments of the ConditionSet. -/
inductive FragKind where
  | fWhere
  | fNot
  | fOr
  | fHaving
  | fJoins
deriving DecidableEq

/-- One tagged condition fragment (query plus positional args). -/
structure Fragment where
  kind : FragKind
  query : GoValue
  args : List GoValue
deriving DecidableEq

/-- Modelled from the spec: the ConditionSet ("Search", search.go is not part
of src/): an ordered fragment list tagged with its kind, scalar limit and
offset with -1 meaning unset, a table-name override, order clauses, group
clause, raw-mode and unscoped flags, attrs and assign values, select and
omit lists and preload directives. -/
structure Search where
  fragments : List Fragment := []
  orders : List GoValue := []
  selects : List (GoValue × List GoValue) := []
  omits : List String := []
  limit : Int := -1
  offset : Int := -1
  group : String := ""
  tableName : Option String := none
  raw : Bool := false
  unscoped : Bool := false
  initAttrs : List GoValue := []
  assignAttrs : List GoValue := []
  preloads : List (String × List GoValue) := []
deriving DecidableEq

/-- Modelled from the spec: the callback registry (callbacks.go is not part
of src/): five named chains, one per operation kind; steps are identified
by their registered names. -/
structure Callback where
  creates : List String := []
  updates : List String := []
  deletes : List String := []
  queries : List String := []
  rowQueries : List String := []
deriving DecidableEq

/-- The five operation kinds of the callback registry. -/
inductive ChainKind where
  | creates
  | updates
  | deletes
  | queries
  | rowQueries
deriving DecidableEq

def Callback.chainOf (cb : Callback) : ChainKind → List String
  | .creates => cb.creates
  | .updates => cb.updates
  | .deletes => cb.deletes
  | .queries => cb.queries
  | .rowQueries => cb.rowQueries

/-- Modelled from the spec: `Register(name, fn)` appends a step to the named
chain (callbacks.go is not part of src/). -/
def Callback.addStep (cb : Callback) (k : ChainKind) (name : String) : Callback :=
  match k with
  | .creates => { cb with creates := cb.creates ++ [name] }
  | .updates => { cb with updates := cb.updates ++ [name] }
  | .deletes => { cb with deletes := cb.deletes ++ [name] }
  | .queries => { cb with queries := cb.queries ++ [name] }
  | .rowQueries => { cb with rowQueries := cb.rowQueries ++ [name] }

/-- Observable side effects of an operation, recorded in order on the state's
trace: a callback-chain execution (with the compiled step list it used), a
value initialization (with the seeding ConditionSet), an application of
Assign overrides to a found record, a direct DDL statement (with the
unscoped flag of the scope it ran on), a Commit or Rollback call on the
underlying connection, and the two logging effects of `AddError`. -/
inductive Event where
  | chain (k : ChainKind) (steps : List String)
  | initValue (s : Search)
  | applyAssign (attrs : List GoValue)
  | ddl (op : String) (unscoped : Bool)
  | connCommit (id : Nat)
  | connRollback (id : Nat)
  | bgLog
  | logPrint
deriving DecidableEq

/-- The `gormDB` struct of src/main.go.  Pointer-valued fields
(`search`, `values`, `callbacks`, `dialect`, `parent`) are represented as
indices into the corresponding heap segment of `St`; `conn` is the shared
`db SQLCommon` field. -/
structure gormDB where
  value : Option GoValue := none
  err : Option ErrVal := none
  rowsAffected : Int := 0
  conn : Conn := Conn.noConn
  blockGlobalUpdate : Bool := false
  logMode : Nat := 0
  searchRef : Option Nat := none
  valuesRef : Nat := 0
  parentRef : Nat := 0
  callbacksRef : Option Nat := none
  dialectRef : Nat := 0
  singularTable : Bool := false
deriving DecidableEq

/-- A dialect instance: `newDialect(name, db)` produces a fresh one bound to
the given connection. -/
structure Dialect where
  name : String := ""
  conn : Conn := Conn.noConn
deriving DecidableEq

/-- The program state: the heap segments for handles, condition sets,
settings maps, callback registries and dialects, plus the event trace. -/
structure St where
  dbs : List gormDB := []
  searches : List Search := []
  settings : List (List (String × GoValue)) := []
  cbs : List Callback := []
  dialects : List Dialect := []
  trace : List Event := []
deriving DecidableEq

/-- Pointwise update of the i-th element of a list (in-place mutation of a
heap cell). -/
def listUpd {α : Type} : List α → Nat → (α → α) → List α
  | [], _, _ => []
  | a :: as, 0, f => f a :: as
  | a :: as, n + 1, f => a :: listUpd as n f

@[simp]
theorem listUpd_nil {α : Type} (i : Nat) (f : α → α) : listUpd [] i f = [] := rfl

@[simp]
theorem length_listUpd {α : Type} (l : List α) (i : Nat) (f : α → α) :
    (listUpd l i f).length = l.length := by
  induction l generalizing i with
  | nil => rfl
  | cons a as ih =>
    cases i with
    | zero => rfl
    | succ n => simp [listUpd, ih]

theorem getElem?_listUpd_ne {α : Type} (l : List α) (i j : Nat) (f : α → α)
    (hij : i ≠ j) : (listUpd l i f)[j]? = l[j]? := by
  induction l generalizing i j with
  | nil => rfl
  | cons a as ih =>
    cases i with
    | zero =>
      cases j with
      | zero => exact absurd rfl hij
      | succ m => simp [listUpd]
    | succ n =>
      cases j with
      | zero => simp [listUpd]
      | succ m =>
        simp only [listUpd, List.getElem?_cons_succ]
        exact ih n m (fun hc => hij (by rw [hc]))

theorem getElem?_listUpd_self {α : Type} (l : List α) (i : Nat) (f : α → α) :
    (listUpd l i f)[i]? = (l[i]?).map f := by
  induction l generalizing i with
  | nil => rfl
  | cons a as ih =>
    cases i with
    | zero => simp [listUpd]
    | succ n => simpa [listUpd] using ih n

theorem getElem?_some_lt {α : Type} (l : List α) (i : Nat) (x : α)
    (h : l[i]? = some x) : i < l.length := by
  induction l generalizing i with
  | nil => simp at h
  | cons a as ih =>
    cases i with
    | zero => simp
    | succ n =>
      simp only [List.getElem?_cons_succ] at h
      exact Nat.succ_lt_succ (ih n h)

theorem getElem?_append_lt {α : Type} (l l2 : List α) (i : Nat)
    (h : i < l.length) : (l ++ l2)[i]? = l[i]? := by
  induction l generalizing i with
  | nil => simp at h
  | cons a as ih =>
    cases i with
    | zero => simp
    | succ n =>
      simp only [List.cons_append, List.getElem?_cons_succ]
      exact ih n (Nat.lt_of_succ_lt_succ h)

@[simp]
theorem getElem?_concat_len {α : Type} (l : List α) (a : α) :
    (l ++ [a])[l.length]? = some a := by
  induction l with
  | nil => rfl
  | cons b bs ih => simp [ih]

/-
State accessors.
-/

def St.dbAt (st : St) (h : Nat) : Option gormDB := st.dbs[h]?

def St.updDb (st : St) (h : Nat) (f : gormDB → gormDB) : St :=
  { st with dbs := listUpd st.dbs h f }

def St.addTrace (st : St) (es : List Event) : St :=
  { st with trace := st.trace ++ es }

/-- The Search cell a handle's `search` pointer refers to. -/
def St.searchCellOf (st : St) (h : Nat) : Option Search :=
  (st.dbs[h]?).bind fun r => r.searchRef.bind fun i => st.searches[i]?

/-- The search-cell index of a handle (the value of its `search` pointer). -/
def St.searchRefOf (st : St) (h : Nat) : Option Nat :=
  (st.dbs[h]?).bind fun r => r.searchRef

/-- In-place mutation of the Search cell a handle points to (what the
chainable `Search` methods do to the clone after `Clone()`). -/
def St.mutSearch (st : St) (h : Nat) (g : Search → Search) : St :=
  match st.searchRefOf h with
  | some i => { st with searches := listUpd st.searches i g }
  | none => st

/-- The settings map a handle's `values` pointer refers to. -/
def St.settingsCellOf (st : St) (h : Nat) : Option (List (String × GoValue)) :=
  (st.dbs[h]?).map fun r => (st.settings[r.valuesRef]?).getD []

def St.errAt (st : St) (h : Nat) : Option ErrVal :=
  (st.dbs[h]?).bind gormDB.err

def St.rowsAt (st : St) (h : Nat) : Int :=
  ((st.dbs[h]?).map gormDB.rowsAffected).getD 0

/-
Error accumulation (gormDB.AddError, src/main.go lines 823-852, with the
Errors aggregate of errors.go modelled from the spec).
-/

/-- Modelled from the spec: `Errors.Add` of errors.go (not part of src/):
"duplicate identical errors are not re-added", otherwise the error is
appended. -/
def errAdd (es : List GoErr) (e : GoErr) : List GoErr :=
  if e ∈ es then es else es ++ [e]

/-- The error list exposed by `GetErrors` (src lines 845-852): the slice
itself for an aggregate, a singleton for a plain non-nil error, else empty. -/
def getErrorsVal : Option ErrVal → List GoErr
  | some (.agg es) => es
  | some (.single e) => [e]
  | none => []

def gormDB.GetErrors (r : gormDB) : List GoErr := getErrorsVal r.err

/-- The new content of the `err` field computed by `AddError` (src lines
823-842): a non-sentinel error is pushed through `Errors.Add` on the current
`GetErrors` list and the result is stored as an aggregate when more than one
error has accumulated; the record-not-found sentinel bypasses all of that and
is stored directly. -/
def addErrVal (cur : Option ErrVal) (e : GoErr) : ErrVal :=
  if e = .recordNotFound then .single .recordNotFound
  else
    let es := errAdd (getErrorsVal cur) e
    if 1 < es.length then .agg es else .single e

/-- The logging side effect of `AddError`: nothing for the sentinel; a
fire-and-forget background log line when logMode is 0; a synchronous log
line when logMode is 2 (Log prints only in detailed mode). -/
def addErrEvents (logMode : Nat) (e : GoErr) : List Event :=
  if e = .recordNotFound then []
  else if logMode = 0 then [.bgLog]
  else if logMode = 2 then [.logPrint]
  else []

/-- `AddError` on a handle (src lines 823-842); a nil error is ignored. -/
def St.addError (st : St) (h : Nat) (e : Option GoErr) : St :=
  match e with
  | none => st
  | some e =>
    match st.dbs[h]? with
    | none => st
    | some r =>
      (st.updDb h fun r2 => { r2 with err := some (addErrVal r2.err e) }).addTrace
        (addErrEvents r.logMode e)

/-- The loop body of `RecordNotFound` (src lines 639-646): scan the
accumulated error list for the sentinel. -/
def errLoop : List GoErr → Bool
  | [] => false
  | e :: es => if e = .recordNotFound then true else errLoop es

def gormDB.RecordNotFound (r : gormDB) : Bool := errLoop r.GetErrors

def St.recordNotFoundAt (st : St) (h : Nat) : Bool :=
  ((st.dbs[h]?).map gormDB.RecordNotFound).getD false

def St.getErrorsAt (st : St) (h : Nat) : List GoErr :=
  getErrorsVal (st.errAt h)

/-
Clone (src/main.go lines 945-970): deep-copy the Search cell (or allocate a
fresh default one when the search pointer is nil) and the settings map,
share the connection and the parent by reference, re-create the dialect via
newDialect from the old dialect's name and the shared connection, reset
rowsAffected to its zero value, drop the clone-local callbacks pointer and
singularTable flag (Clone does not copy them), and carry over value, error,
logger mode and blockGlobalUpdate.
-/
/-- The deep copy of the receiver's Search cell allocated by Clone: the cell's
current content, or the fresh default ConditionSet when the receiver's
search pointer is nil. -/
def cloneSearchOf (st : St) (r : gormDB) : Search :=
  match r.searchRef with
  | none => {}
  | some i => (st.searches[i]?).getD {}

/-- The copy of the receiver's settings map allocated by Clone. -/
def cloneSettingsOf (st : St) (r : gormDB) : List (String × GoValue) :=
  (st.settings[r.valuesRef]?).getD []

/-- The fresh dialect `newDialect(s.dialect.GetName(), s.db)` allocated by
Clone: a new instance carrying the old dialect's name, bound to the shared
connection. -/
def cloneDialectOf (st : St) (r : gormDB) : Dialect :=
  { name := ((st.dialects[r.dialectRef]?).getD {}).name, conn := r.conn }

/-- The clone's handle record: value, error, connection, blockGlobalUpdate
and logMode carried over; rowsAffected at its zero value; fresh search,
settings and dialect cells; shared parent; callbacks pointer and
singularTable not copied (their zero values). -/
def cloneRec (st : St) (r : gormDB) : gormDB :=
  { value := r.value, err := r.err, rowsAffected := 0, conn := r.conn,
    blockGlobalUpdate := r.blockGlobalUpdate, logMode := r.logMode,
    searchRef := some st.searches.length, valuesRef := st.settings.length,
    parentRef := r.parentRef, callbacksRef := none,
    dialectRef := st.dialects.length, singularTable := false }

/-- The heap after Clone's allocations. -/
def St.cloneAlloc (st : St) (r : gormDB) : St :=
  { st with
    dbs := st.dbs ++ [cloneRec st r],
    searches := st.searches ++ [cloneSearchOf st r],
    settings := st.settings ++ [cloneSettingsOf st r],
    dialects := st.dialects ++ [cloneDialectOf st r] }

def St.Clone (st : St) (h : Nat) : Nat × St :=
  match st.dbs[h]? with
  | none => (h, st)
  | some r => (st.dbs.length, st.cloneAlloc r)

/-
Search mutators.  Modelled from the spec (search.go is not part of src/):
each accumulating method appends a tagged fragment; Order appends unless
reorder is set, in which case it replaces all prior order fragments;
Limit and Offset overwrite; Attrs and Assign merge; Table sets the
table-name override; Raw sets the raw-mode flag; unscoped sets the
soft-delete-bypass flag.
-/

def Search.Where (s : Search) (q : GoValue) (args : List GoValue) : Search :=
  { s with fragments := s.fragments ++ [⟨FragKind.fWhere, q, args⟩] }

def Search.OrS (s : Search) (q : GoValue) (args : List GoValue) : Search :=
  { s with fragments := s.fragments ++ [⟨FragKind.fOr, q, args⟩] }

def Search.NotS (s : Search) (q : GoValue) (args : List GoValue) : Search :=
  { s with fragments := s.fragments ++ [⟨FragKind.fNot, q, args⟩] }

def Search.Having (s : Search) (q : GoValue) (args : List GoValue) : Search :=
  { s with fragments := s.fragments ++ [⟨FragKind.fHaving, q, args⟩] }

def Search.Joins (s : Search) (q : GoValue) (args : List GoValue) : Search :=
  { s with fragments := s.fragments ++ [⟨FragKind.fJoins, q, args⟩] }

def Search.Order (s : Search) (v : GoValue) (reorder : Bool) : Search :=
  { s with orders := if reorder then [v] else s.orders ++ [v] }

def Search.Limit (s : Search) (n : Int) : Search := { s with limit := n }

def Search.Offset (s : Search) (n : Int) : Search := { s with offset := n }

def Search.Select (s : Search) (q : GoValue) (args : List GoValue) : Search :=
  { s with selects := s.selects ++ [(q, args)] }

def Search.Omit (s : Search) (cols : List String) : Search := { s with omits := cols }

def Search.Group (s : Search) (g : String) : Search := { s with group := g }

def Search.Attrs (s : Search) (vs : List GoValue) : Search :=
  { s with initAttrs := s.initAttrs ++ vs }

def Search.Assign (s : Search) (vs : List GoValue) : Search :=
  { s with assignAttrs := s.assignAttrs ++ vs }

def Search.Preload (s : Search) (col : String) (conds : List GoValue) : Search :=
  { s with preloads := s.preloads ++ [(col, conds)] }

def Search.Table (s : Search) (name : String) : Search := { s with tableName := some name }

def Search.RawMode (s : Search) (b : Bool) : Search := { s with raw := b }

def Search.setUnscoped (s : Search) : Search := { s with unscoped := true }

/-
Condition-building calls on the handle (src/main.go lines 304-399, 557-589,
781-785).  Every one of them follows the source's shape
`return s.Clone().Search().<Mutator>(...).db`: clone the handle, apply the
mutator to the clone's Search cell, return the clone.  `cloneMutS` is that
shared shape.
-/

def St.cloneMutS (st : St) (h : Nat) (g : Search → Search) : Nat × St :=
  let p := st.Clone h
  (p.1, p.2.mutSearch p.1 g)

def St.WhereDB (st : St) (h : Nat) (q : GoValue) (args : List GoValue) : Nat × St :=
  st.cloneMutS h (fun s => s.Where q args)

def St.OrDB (st : St) (h : Nat) (q : GoValue) (args : List GoValue) : Nat × St :=
  st.cloneMutS h (fun s => s.OrS q args)

def St.NotDB (st : St) (h : Nat) (q : GoValue) (args : List GoValue) : Nat × St :=
  st.cloneMutS h (fun s => s.NotS q args)

def St.LimitDB (st : St) (h : Nat) (n : Int) : Nat × St :=
  st.cloneMutS h (fun s => s.Limit n)

def St.OffsetDB (st : St) (h : Nat) (n : Int) : Nat × St :=
  st.cloneMutS h (fun s => s.Offset n)

def St.OrderDB (st : St) (h : Nat) (v : GoValue) (reorder : Bool) : Nat × St :=
  st.cloneMutS h (fun s => s.Order v reorder)

def St.SelectDB (st : St) (h : Nat) (q : GoValue) (args : List GoValue) : Nat × St :=
  st.cloneMutS h (fun s => s.Select q args)

def St.OmitDB (st : St) (h : Nat) (cols : List String) : Nat × St :=
  st.cloneMutS h (fun s => s.Omit cols)

def St.GroupDB (st : St) (h : Nat) (g : String) : Nat × St :=
  st.cloneMutS h (fun s => s.Group g)

def St.HavingDB (st : St) (h : Nat) (q : GoValue) (args : List GoValue) : Nat × St :=
  st.cloneMutS h (fun s => s.Having q args)

def St.JoinsDB (st : St) (h : Nat) (q : String) (args : List GoValue) : Nat × St :=
  st.cloneMutS h (fun s => s.Joins (.vStr q) args)

def St.PreloadDB (st : St) (h : Nat) (col : String) (conds : List GoValue) : Nat × St :=
  st.cloneMutS h (fun s => s.Preload col conds)

def St.AttrsDB (st : St) (h : Nat) (vs : List GoValue) : Nat × St :=
  st.cloneMutS h (fun s => s.Attrs vs)

def St.AssignDB (st : St) (h : Nat) (vs : List GoValue) : Nat × St :=
  st.cloneMutS h (fun s => s.Assign vs)

def St.UnscopedDB (st : St) (h : Nat) : Nat × St :=
  st.cloneMutS h Search.setUnscoped

/-- `Raw` (src lines 559-561): clone, set the raw flag on the clone's Search
and add the raw SQL as a where fragment. -/
def St.RawDB (st : St) (h : Nat) (sql : String) (vals : List GoValue) : Nat × St :=
  st.cloneMutS h (fun s => (s.RawMode true).Where (.vStr sql) vals)

/-- `Model` (src lines 577-581): clone, set the clone's value. -/
def St.ModelDB (st : St) (h : Nat) (v : GoValue) : Nat × St :=
  let p := st.Clone h
  (p.1, p.2.updDb p.1 (fun r => { r with value := some v }))

/-- `Table` (src lines 584-589): clone, set the clone's table-name override
and clear its value. -/
def St.TableDB (st : St) (h : Nat) (name : String) : Nat × St :=
  let p := st.Clone h
  (p.1, (p.2.mutSearch p.1 (fun s => s.Table name)).updDb p.1
    (fun r => { r with value := none }))

/-- One call of the condition-building API surface quantified over by the
clone-isolation property. -/
inductive BuildCall where
  | bWhere (q : GoValue) (args : List GoValue)
  | bOr (q : GoValue) (args : List GoValue)
  | bNot (q : GoValue) (args : List GoValue)
  | bLimit (n : Int)
  | bOffset (n : Int)
  | bOrder (v : GoValue) (reorder : Bool)
  | bSelect (q : GoValue) (args : List GoValue)
  | bOmit (cols : List String)
  | bGroup (g : String)
  | bHaving (q : GoValue) (args : List GoValue)
  | bJoins (q : String) (args : List GoValue)
  | bPreload (col : String) (conds : List GoValue)
  | bAttrs (vs : List GoValue)
  | bAssign (vs : List GoValue)
  | bUnscoped
  | bTable (name : String)
  | bRaw (sql : String) (vals : List GoValue)
  | bModel (v : GoValue)
deriving DecidableEq

def St.applyBuild (st : St) (h : Nat) : BuildCall → Nat × St
  | .bWhere q a => st.WhereDB h q a
  | .bOr q a => st.OrDB h q a
  | .bNot q a => st.NotDB h q a
  | .bLimit n => st.LimitDB h n
  | .bOffset n => st.OffsetDB h n
  | .bOrder v r => st.OrderDB h v r
  | .bSelect q a => st.SelectDB h q a
  | .bOmit cs => st.OmitDB h cs
  | .bGroup g => st.GroupDB h g
  | .bHaving q a => st.HavingDB h q a
  | .bJoins q a => st.JoinsDB h q a
  | .bPreload c cs => st.PreloadDB h c cs
  | .bAttrs vs => st.AttrsDB h vs
  | .bAssign vs => st.AssignDB h vs
  | .bUnscoped => st.UnscopedDB h
  | .bTable n => st.TableDB h n
  | .bRaw s v => st.RawDB h s v
  | .bModel v => st.ModelDB h v

/-
Settings (src/main.go lines 788-802): Set clones then InstantSet on the
clone; InstantSet writes into the current handle's settings map in place;
Get is a read-only lookup.
-/

/-- Go map insertion on the association-list representation of the settings
map: overwrite the entry when the key is present, append otherwise. -/
def assocSet (m : List (String × GoValue)) (k : String) (v : GoValue) :
    List (String × GoValue) :=
  if k ∈ m.map Prod.fst then
    m.map (fun p => if p.1 = k then (k, v) else p)
  else m ++ [(k, v)]

def lookupName : List (String × GoValue) → String → Option GoValue
  | [], _ => none
  | p :: ps, k => if p.1 = k then some p.2 else lookupName ps k

def St.InstantSet (st : St) (h : Nat) (name : String) (v : GoValue) : Nat × St :=
  match st.dbs[h]? with
  | none => (h, st)
  | some r =>
    (h, { st with settings := listUpd st.settings r.valuesRef (fun m => assocSet m name v) })

def St.SetDB (st : St) (h : Nat) (name : String) (v : GoValue) : Nat × St :=
  let p := st.Clone h
  p.2.InstantSet p.1 name v

def St.GetDB (st : St) (h : Nat) (name : String) : Option GoValue :=
  (st.dbs[h]?).bind fun r => lookupName ((st.settings[r.valuesRef]?).getD []) name

/-
Transactions (src/main.go lines 612-631).  The guard of Commit and Rollback
is the source's `db, ok := s.db.(sqlTx); ok && db != nil && db != emptySQLTx`:
the connection must be typed as a transaction, be a non-nil interface and
not be the typed-nil `*sql.Tx`.  Only `Conn.txConn` passes all three.  When
the guard passes, the transaction's Commit or Rollback is invoked on the
underlying connection (a connection call on the trace) and its result
(supplied by the caller as `res`, the external collaborator's return value)
is pushed through AddError; otherwise ErrInvalidTransaction is added and no
connection call happens.  Both mutate the receiving handle in place and
return it.
-/

def St.Commit (st : St) (h : Nat) (res : Option GoErr) : Nat × St :=
  match st.dbs[h]? with
  | none => (h, st)
  | some r =>
    match r.conn with
    | .txConn id => (h, (st.addTrace [.connCommit id]).addError h res)
    | _ => (h, st.addError h (some .invalidTransaction))

def St.Rollback (st : St) (h : Nat) (res : Option GoErr) : Nat × St :=
  match st.dbs[h]? with
  | none => (h, st)
  | some r =>
    match r.conn with
    | .txConn id => (h, (st.addTrace [.connRollback id]).addError h res)
    | _ => (h, st.addError h (some .invalidTransaction))

def isNonNilTx : Conn → Bool
  | .txConn _ => true
  | _ => false

def isConnEvent : Event → Bool
  | .connCommit _ => true
  | .connRollback _ => true
  | _ => false

def connCalls (tr : List Event) : List Event := tr.filter isConnEvent

/-
Callback registry access (src/main.go lines 239-242): `Callback()` installs
a clone of the parent's registry ONTO THE PARENT
(`s.parent.SetCallbacks(s.parent.Callbacks().clone())`) and returns that
newly installed registry.  The registry clone itself is modelled from the
spec (copy-on-write deep copy of the five chains).
-/

def St.CallbackDB (st : St) (h : Nat) : Nat × St :=
  match st.dbs[h]? with
  | none => (0, st)
  | some r =>
    match st.dbs[r.parentRef]? with
    | none => (0, st)
    | some p =>
      let reg : Callback := (p.callbacksRef.bind (fun j => st.cbs[j]?)).getD {}
      (st.cbs.length,
        { st with
          cbs := st.cbs ++ [reg],
          dbs := listUpd st.dbs r.parentRef
            (fun q => { q with callbacksRef := some st.cbs.length }) })

/-- Modelled from the spec: registering a step on a registry obtained from
`Callback()` mutates that registry object in place (callbacks.go is not part
of src/). -/
def St.Register (st : St) (cbRef : Nat) (k : ChainKind) (name : String) : St :=
  { st with cbs := listUpd st.cbs cbRef (fun cb => cb.addStep k name) }

/-- The compiled chain an operation through handle `h` executes: terminal
calls look the registry up through the shared parent
(`s.parent.Callbacks()`, e.g. src line 426). -/
def St.chainUsedBy (st : St) (h : Nat) (k : ChainKind) : List String :=
  match st.dbs[h]? with
  | none => []
  | some r =>
    match st.dbs[r.parentRef]? with
    | none => []
    | some p => ((p.callbacksRef.bind fun j => st.cbs[j]?).getD {}).chainOf k

/-
Scopes and callback-chain execution.
-/

/-- A Scope (created per terminal operation, src lines 279-284): binds the
clone the operation runs on, a snapshot of that clone's ConditionSet and
the target value. -/
structure Scope where
  db : Nat
  search : Search
  value : Option GoValue

/-- `NewScope` (src lines 279-284): clone the handle, set the value on the
clone, snapshot the clone's Search cell into the scope. -/
def St.NewScope (st : St) (h : Nat) (v : Option GoValue) : Scope × St :=
  let p := st.Clone h
  let st2 := p.2.updDb p.1 (fun r => { r with value := v })
  (⟨p.1, (st2.searchCellOf p.1).getD {}, v⟩, st2)

/-- The outcome of executing one compiled callback chain against the
external database: the error it accumulates and the rows-affected count it
reports. -/
structure Outcome where
  err : Option GoErr := none
  rows : Int := 0

/-- External behaviour of the database: the outcome of the n-th chain
execution of the run, per operation kind. -/
def Env : Type := Nat → ChainKind → Outcome

def countChains : List Event → Nat
  | [] => 0
  | .chain _ _ :: es => countChains es + 1
  | _ :: es => countChains es

/-- Modelled from the spec: `Scope.callCallbacks` (scope.go is not part of
src/): the compiled chain for the operation kind, looked up through the
scope handle's shared parent, runs in order against the scope; the execution
is recorded on the trace, the external outcome's rows-affected count is
stored on the scope's handle and its error is pushed through `AddError`;
the scope's handle (`scope.db`) is the operation's result handle. -/
def St.callCallbacks (st : St) (env : Env) (k : ChainKind) (sc : Scope) : Nat × St :=
  let steps := st.chainUsedBy sc.db k
  let out := env (countChains st.trace) k
  let st1 := st.addTrace [.chain k steps]
  let st2 := st1.updDb sc.db (fun r => { r with rowsAffected := out.rows })
  (sc.db, st2.addError sc.db out.err)

/-- Modelled from the spec: `Scope.inlineCondition` (scope.go is not part of
src/): each inline argument of a terminal call becomes one where fragment
on the scope's ConditionSet snapshot. -/
def Scope.inlineCondition (sc : Scope) (wh : List GoValue) : Scope :=
  { sc with search := wh.foldl (fun s w => s.Where w []) sc.search }

/-- Modelled from the spec: `Scope.initialize` (scope.go is not part of
src/): initializes the scope's value, seeded with the lookup conditions and
the Attrs and Assign values held in the scope's ConditionSet; recorded as a
trace event carrying that seed ConditionSet.  No callback chain runs. -/
def St.initScope (st : St) (sc : Scope) : Scope × St :=
  (sc, st.addTrace [.initValue sc.search])

/-- Modelled from the spec: `Scope.updatedAttrsWithValues` applied to the
Assign values of a found record (scope.go is not part of src/); recorded as
a trace event carrying the applied override values. -/
def St.updatedAttrs (st : St) (attrs : List GoValue) : St :=
  st.addTrace [.applyAssign attrs]

/-- `First` (src lines 402-407): new scope with limit 1 and the
primary-key-ascending order setting, inline conditions, then the query
chain. -/
def St.First (st : St) (env : Env) (h : Nat) (out : Option GoValue)
    (wh : List GoValue) : Nat × St :=
  let p := st.NewScope h out
  let sc := { p.1 with search := p.1.search.Limit 1 }
  let q := p.2.InstantSet sc.db "gorm:order_by_primary_key" (.vStr "ASC")
  q.2.callCallbacks env .queries (sc.inlineCondition wh)

/-- `Find` (src lines 425-427): new scope, inline conditions, query chain. -/
def St.Find (st : St) (env : Env) (h : Nat) (out : Option GoValue)
    (wh : List GoValue) : Nat × St :=
  let p := st.NewScope h out
  p.2.callCallbacks env .queries (p.1.inlineCondition wh)

/-- `New` (src lines 200-205): clone, then clear the clone's search pointer
and value. -/
def St.NewDB (st : St) (h : Nat) : Nat × St :=
  let p := st.Clone h
  (p.1, p.2.updDb p.1 (fun r => { r with searchRef := none, value := none }))

/-- `FirstOrInit` (src lines 478-489): clone, run First on the clone; when
First failed with something other than the sentinel, return its result
unchanged; on sentinel not-found, build a scope on the clone, add the inline
conditions and initialize; when First succeeded, apply the clone's Assign
values to the found record via updatedAttrsWithValues.  The clone is the
returned handle in the latter two branches. -/
def St.FirstOrInit (st : St) (env : Env) (h : Nat) (out : Option GoValue)
    (wh : List GoValue) : Nat × St :=
  let c := st.Clone h
  let r := c.2.First env c.1 out wh
  if (r.2.errAt r.1).isSome then
    if r.2.recordNotFoundAt r.1 then
      let p := r.2.NewScope c.1 out
      let q := p.2.initScope (p.1.inlineCondition wh)
      (c.1, q.2)
    else r
  else
    let p := r.2.NewScope c.1 out
    (c.1, p.2.updatedAttrs (((r.2.searchCellOf c.1).getD {}).assignAttrs))

/-- `FirstOrCreate` (src lines 493-504): clone, run First on the ORIGINAL
handle; when First failed with something other than the sentinel, return its
result unchanged; on sentinel not-found, build a scope on the clone, add the
inline conditions, initialize and run the create chain; when First succeeded
and the clone's Assign values are non-empty, run the update chain seeded
with them; otherwise return the clone. -/
def St.FirstOrCreate (st : St) (env : Env) (h : Nat) (out : Option GoValue)
    (wh : List GoValue) : Nat × St :=
  let c := st.Clone h
  let r := c.2.First env h out wh
  if (r.2.errAt r.1).isSome then
    if r.2.recordNotFoundAt r.1 then
      let p := r.2.NewScope c.1 out
      let q := p.2.initScope (p.1.inlineCondition wh)
      q.2.callCallbacks env .creates q.1
    else r
  else if (((r.2.searchCellOf c.1).getD {}).assignAttrs).isEmpty then
    (c.1, r.2)
  else
    let p := r.2.NewScope c.1 out
    p.2.callCallbacks env .updates p.1

/-- Modelled from the spec: `Scope.PrimaryKeyZero` (scope.go is not part of
src/): whether the target value's primary key is blank; only a struct value
with a non-zero primary key counts as non-blank. -/
def PrimaryKeyZero : Option GoValue → Bool
  | some (.vRec pk) => pk == 0
  | _ => true

/-- `Save` (src lines 534-544): build a scope on the value; when its primary
key is non-zero run the update chain, and when that run ends without error
but with zero rows affected fall back to `New().FirstOrCreate(value)`;
when the primary key is zero run the create chain. -/
def St.Save (st : St) (env : Env) (h : Nat) (v : GoValue) : Nat × St :=
  let p := st.NewScope h (some v)
  if PrimaryKeyZero (some v) then
    p.2.callCallbacks env .creates p.1
  else
    let u := p.2.callCallbacks env .updates p.1
    if (u.2.errAt u.1).isNone && (u.2.rowsAt u.1 == 0) then
      let n := u.2.NewDB h
      n.2.FirstOrCreate env n.1 (some v) []
    else u

/-
Schema operations (src/main.go lines 649-757).  The structural statement a
Scope issues (`createTable`, `dropTable`, `autoMigrate`, the index and
foreign-key helpers of scope.go) is modelled from the spec as a direct DDL
trace event (no callback chain runs); the event records the unscoped flag
of the scope's ConditionSet snapshot.
-/

def St.ddlFold (st : St) (db : Nat) (vs : List GoValue) (opName : String) : Nat × St :=
  match vs with
  | [] => (db, st)
  | v :: rest =>
    let p := st.NewScope db (some v)
    let st2 := p.2.addTrace [.ddl opName p.1.search.unscoped]
    St.ddlFold st2 p.1.db rest opName

/-- `CreateTable` (src lines 649-655): force Unscoped, then one scope and
one direct DDL statement per model. -/
def St.CreateTable (st : St) (h : Nat) (vs : List GoValue) : Nat × St :=
  let u := st.UnscopedDB h
  u.2.ddlFold u.1 vs "createTable"

/-- `AutoMigrate` (src lines 700-706): force Unscoped, then one scope and
one direct DDL statement per value. -/
def St.AutoMigrate (st : St) (h : Nat) (vs : List GoValue) : Nat × St :=
  let u := st.UnscopedDB h
  u.2.ddlFold u.1 vs "autoMigrate"

def St.dropFold (st : St) (db : Nat) (vs : List GoValue) : Nat × St :=
  match vs with
  | [] => (db, st)
  | v :: rest =>
    let t : Nat × St :=
      match v with
      | .vStr name => st.TableDB db name
      | _ => (db, st)
    let p := t.2.NewScope t.1 (some v)
    let st2 := p.2.addTrace [.ddl "dropTable" p.1.search.unscoped]
    St.dropFold st2 p.1.db rest

/-- `DropTable` (src lines 658-668): plain Clone (no Unscoped), a Table
redirect for string arguments, then one scope and one direct DDL statement
per value. -/
def St.DropTable (st : St) (h : Nat) (vs : List GoValue) : Nat × St :=
  let c := st.Clone h
  c.2.dropFold c.1 vs

/-- `AddIndex` (src lines 723-727): scope on `s.Unscoped()` over the
handle's own value, one direct DDL statement. -/
def St.AddIndex (st : St) (h : Nat) (indexName : String) : Nat × St :=
  let u := st.UnscopedDB h
  let p := u.2.NewScope u.1 ((st.dbs[h]?).bind gormDB.value)
  (p.1.db, p.2.addTrace [.ddl (String.append "addIndex:" indexName) p.1.search.unscoped])

/-- `AddUniqueIndex` (src lines 730-734): same shape as AddIndex. -/
def St.AddUniqueIndex (st : St) (h : Nat) (indexName : String) : Nat × St :=
  let u := st.UnscopedDB h
  let p := u.2.NewScope u.1 ((st.dbs[h]?).bind gormDB.value)
  (p.1.db, p.2.addTrace [.ddl (String.append "addUniqueIndex:" indexName) p.1.search.unscoped])

/-- `RemoveIndex` (src lines 737-741): scope directly on the handle (no
Unscoped), one direct DDL statement. -/
def St.RemoveIndex (st : St) (h : Nat) (indexName : String) : Nat × St :=
  let p := st.NewScope h ((st.dbs[h]?).bind gormDB.value)
  (p.1.db, p.2.addTrace [.ddl (String.append "removeIndex:" indexName) p.1.search.unscoped])

/-- `AddForeignKey` (src lines 745-749): scope directly on the handle (no
Unscoped), one direct DDL statement. -/
def St.AddForeignKey (st : St) (h : Nat) (field : String) : Nat × St :=
  let p := st.NewScope h ((st.dbs[h]?).bind gormDB.value)
  (p.1.db, p.2.addTrace [.ddl (String.append "addForeignKey:" field) p.1.search.unscoped])

/-- `RemoveForeignKey` (src lines 753-757): Clone then scope (no Unscoped),
one direct DDL statement. -/
def St.RemoveForeignKey (st : St) (h : Nat) (field : String) : Nat × St :=
  let c := st.Clone h
  let p := c.2.NewScope c.1 ((st.dbs[h]?).bind gormDB.value)
  (p.1.db, p.2.addTrace [.ddl (String.append "removeForeignKey:" field) p.1.search.unscoped])

/-
Frame lemmas about the heap operations.
-/

theorem Clone_some (st : St) (h : Nat) (r : gormDB) (hr : st.dbs[h]? = some r) :
    st.Clone h = (st.dbs.length, st.cloneAlloc r) := by
  simp [St.Clone, hr]

theorem cloneAlloc_dbs_old (st : St) (r : gormDB) (k : Nat) (hk : k < st.dbs.length) :
    (st.cloneAlloc r).dbs[k]? = st.dbs[k]? :=
  getElem?_append_lt _ _ _ hk

theorem cloneAlloc_dbs_new (st : St) (r : gormDB) :
    (st.cloneAlloc r).dbs[st.dbs.length]? = some (cloneRec st r) := by
  simp [St.cloneAlloc]

theorem cloneAlloc_searches_old (st : St) (r : gormDB) (k : Nat)
    (hk : k < st.searches.length) :
    (st.cloneAlloc r).searches[k]? = st.searches[k]? :=
  getElem?_append_lt _ _ _ hk

theorem cloneAlloc_searches_new (st : St) (r : gormDB) :
    (st.cloneAlloc r).searches[st.searches.length]? = some (cloneSearchOf st r) := by
  simp [St.cloneAlloc]

theorem cloneAlloc_settings_old (st : St) (r : gormDB) (k : Nat)
    (hk : k < st.settings.length) :
    (st.cloneAlloc r).settings[k]? = st.settings[k]? :=
  getElem?_append_lt _ _ _ hk

theorem cloneAlloc_settings_new (st : St) (r : gormDB) :
    (st.cloneAlloc r).settings[st.settings.length]? = some (cloneSettingsOf st r) := by
  simp [St.cloneAlloc]

theorem cloneAlloc_dialects_new (st : St) (r : gormDB) :
    (st.cloneAlloc r).dialects[st.dialects.length]? = some (cloneDialectOf st r) := by
  simp [St.cloneAlloc]

@[simp]
theorem cloneAlloc_cbs (st : St) (r : gormDB) : (st.cloneAlloc r).cbs = st.cbs := rfl

@[simp]
theorem cloneAlloc_trace (st : St) (r : gormDB) : (st.cloneAlloc r).trace = st.trace := rfl

theorem updDb_dbs_self (st : St) (a : Nat) (f : gormDB → gormDB) :
    (st.updDb a f).dbs[a]? = (st.dbs[a]?).map f :=
  getElem?_listUpd_self _ _ _

theorem updDb_dbs_ne (st : St) (a b : Nat) (f : gormDB → gormDB) (hab : a ≠ b) :
    (st.updDb a f).dbs[b]? = st.dbs[b]? :=
  getElem?_listUpd_ne _ _ _ _ hab

@[simp]
theorem updDb_searches (st : St) (a : Nat) (f : gormDB → gormDB) :
    (st.updDb a f).searches = st.searches := rfl

@[simp]
theorem updDb_settings (st : St) (a : Nat) (f : gormDB → gormDB) :
    (st.updDb a f).settings = st.settings := rfl

@[simp]
theorem updDb_cbs (st : St) (a : Nat) (f : gormDB → gormDB) :
    (st.updDb a f).cbs = st.cbs := rfl

@[simp]
theorem updDb_trace (st : St) (a : Nat) (f : gormDB → gormDB) :
    (st.updDb a f).trace = st.trace := rfl

@[simp]
theorem addTrace_dbs (st : St) (es : List Event) : (st.addTrace es).dbs = st.dbs := rfl

@[simp]
theorem addTrace_searches (st : St) (es : List Event) :
    (st.addTrace es).searches = st.searches := rfl

@[simp]
theorem addTrace_settings (st : St) (es : List Event) :
    (st.addTrace es).settings = st.settings := rfl

@[simp]
theorem addTrace_cbs (st : St) (es : List Event) : (st.addTrace es).cbs = st.cbs := rfl

@[simp]
theorem addTrace_trace (st : St) (es : List Event) :
    (st.addTrace es).trace = st.trace ++ es := rfl

theorem mutSearch_dbs (st : St) (h : Nat) (g : Search → Search) :
    (st.mutSearch h g).dbs = st.dbs := by
  unfold St.mutSearch
  cases st.searchRefOf h <;> rfl

theorem mutSearch_settings (st : St) (h : Nat) (g : Search → Search) :
    (st.mutSearch h g).settings = st.settings := by
  unfold St.mutSearch
  cases st.searchRefOf h <;> rfl

theorem mutSearch_trace (st : St) (h : Nat) (g : Search → Search) :
    (st.mutSearch h g).trace = st.trace := by
  unfold St.mutSearch
  cases st.searchRefOf h <;> rfl

/-
Lemmas about error accumulation.
-/

theorem errLoop_eq_true_iff (es : List GoErr) :
    errLoop es = true ↔ GoErr.recordNotFound ∈ es := by
  induction es with
  | nil => simp [errLoop]
  | cons a t ih =>
    by_cases ha : a = GoErr.recordNotFound
    · subst ha
      simp [errLoop]
    · simp [errLoop, ha, ih, List.mem_cons]
      intro hc
      exact absurd hc.symm ha

theorem mem_errAdd_self (es : List GoErr) (e : GoErr) : e ∈ errAdd es e := by
  by_cases hm : e ∈ es <;> simp [errAdd, hm]

theorem errAdd_short (old : List GoErr) (e : GoErr)
    (h : ¬ 1 < (errAdd old e).length) : errAdd old e = [e] := by
  by_cases hm : e ∈ old
  · simp only [errAdd, hm, if_pos] at h ⊢
    cases old with
    | nil => simp at hm
    | cons a t =>
      cases t with
      | nil =>
        simp at hm
        simp [hm]
      | cons b t2 => simp at h
  · simp only [errAdd, hm, if_neg, not_false_iff] at h ⊢
    cases old with
    | nil => rfl
    | cons a t => simp at h

theorem addErrVal_agg (cur : Option ErrVal) (e : GoErr)
    (he : e ≠ GoErr.recordNotFound)
    (h1 : 1 < (errAdd (getErrorsVal cur) e).length) :
    addErrVal cur e = .agg (errAdd (getErrorsVal cur) e) := by
  unfold addErrVal
  simp [he, h1]

theorem addErrVal_single (cur : Option ErrVal) (e : GoErr)
    (he : e ≠ GoErr.recordNotFound)
    (h1 : ¬ 1 < (errAdd (getErrorsVal cur) e).length) :
    addErrVal cur e = .single e := by
  unfold addErrVal
  simp [he, h1]

theorem getErrors_addErrVal (cur : Option ErrVal) (e : GoErr)
    (he : e ≠ GoErr.recordNotFound) :
    getErrorsVal (some (addErrVal cur e)) = errAdd (getErrorsVal cur) e := by
  by_cases h1 : 1 < (errAdd (getErrorsVal cur) e).length
  · rw [addErrVal_agg cur e he h1]
    rfl
  · rw [addErrVal_single cur e he h1, errAdd_short _ _ h1]
    rfl

theorem addError_eq (st : St) (h : Nat) (r : gormDB) (e : GoErr)
    (hr : st.dbs[h]? = some r) :
    st.addError h (some e) =
      (st.updDb h fun r2 => { r2 with err := some (addErrVal r2.err e) }).addTrace
        (addErrEvents r.logMode e) := by
  simp [St.addError, hr]

theorem addError_errAt (st : St) (h : Nat) (r : gormDB) (e : GoErr)
    (hr : st.dbs[h]? = some r) :
    (st.addError h (some e)).errAt h = some (addErrVal r.err e) := by
  rw [addError_eq st h r e hr]
  simp [St.errAt, updDb_dbs_self, hr]

theorem getErrorsAt_eq (st : St) (h : Nat) (r : gormDB) (hr : st.dbs[h]? = some r) :
    st.getErrorsAt h = getErrorsVal r.err := by
  simp [St.getErrorsAt, St.errAt, hr]

theorem addError_getErrors (st : St) (h : Nat) (r : gormDB) (e : GoErr)
    (hr : st.dbs[h]? = some r) (he : e ≠ GoErr.recordNotFound) :
    (st.addError h (some e)).getErrorsAt h = errAdd (st.getErrorsAt h) e := by
  rw [getErrorsAt_eq st h r hr]
  simp [St.getErrorsAt, addError_errAt st h r e hr, getErrors_addErrVal r.err e he]

theorem addError_trace (st : St) (h : Nat) (r : gormDB) (e : GoErr)
    (hr : st.dbs[h]? = some r) :
    (st.addError h (some e)).trace = st.trace ++ addErrEvents r.logMode e := by
  rw [addError_eq st h r e hr]
  simp

theorem connCalls_addErrEvents (lm : Nat) (e : GoErr) :
    connCalls (addErrEvents lm e) = [] := by
  unfold addErrEvents
  split_ifs <;> rfl

/-
Shared concrete objects used by the witnesses: one root handle (its parent
pointer is itself, as `Open` sets it) over a plain, non-transaction
connection, carrying some accumulated state.
-/

def recW : gormDB :=
  { value := some (.vInt 7), err := some (.single (.generic 3)), rowsAffected := 5,
    conn := .plainDB 0, blockGlobalUpdate := true, logMode := 2,
    searchRef := some 0, valuesRef := 0, parentRef := 0,
    callbacksRef := some 0, dialectRef := 0, singularTable := false }

def stW : St :=
  { dbs := [recW], searches := [{ limit := 4, unscoped := false }],
    settings := [[("k", GoValue.vBool true)]],
    cbs := [{ creates := ["c1"], queries := ["q1"] }],
    dialects := [{ name := "sqlite3", conn := .plainDB 0 }], trace := [] }

/-- A handle record whose error is the record-not-found sentinel. -/
def recNF : gormDB := { recW with err := some (.single .recordNotFound) }

/-- C10: Clone (hence every condition-building call, which clones) returns a
handle whose rowsAffected is reset to 0 regardless of the receiver's value,
while the receiver's accumulated error, value, settings entries, log mode
and block-global-update flag are carried over to the clone. -/
theorem Clone_rows_reset_state_carried (st : St) (h : Nat) (r : gormDB)
    (hr : st.dbs[h]? = some r) :
    ((st.Clone h).2.dbs[(st.Clone h).1]?).map gormDB.rowsAffected = some 0 ∧
    ((st.Clone h).2.dbs[(st.Clone h).1]?).map gormDB.err = some r.err ∧
    ((st.Clone h).2.dbs[(st.Clone h).1]?).map gormDB.value = some r.value ∧
    ((st.Clone h).2.dbs[(st.Clone h).1]?).map gormDB.logMode = some r.logMode ∧
    ((st.Clone h).2.dbs[(st.Clone h).1]?).map gormDB.blockGlobalUpdate =
      some r.blockGlobalUpdate ∧
    (st.Clone h).2.settingsCellOf (st.Clone h).1 = st.settingsCellOf h := by
  rw [Clone_some st h r hr]
  refine ⟨?_, ?_, ?_, ?_, ?_, ?_⟩ <;>
    simp [St.cloneAlloc, cloneRec, St.settingsCellOf, hr, cloneSettingsOf]

/-- C10 witness: the properties evaluated on the concrete root handle. -/
theorem Clone_rows_reset_state_carried_witness :
    ((stW.Clone 0).2.dbs[(stW.Clone 0).1]?).map gormDB.rowsAffected = some 0 ∧
    (stW.Clone 0).2.settingsCellOf (stW.Clone 0).1 = stW.settingsCellOf 0 :=
  ⟨(Clone_rows_reset_state_carried stW 0 recW rfl).1,
   (Clone_rows_reset_state_carried stW 0 recW rfl).2.2.2.2.2⟩

/-- C5 (amended): AddError appends a non-sentinel error, without duplicating
an error already present, to the handle's accumulated error list, storing an
aggregate value exposing the whole list once more than one error has
accumulated; the record-not-found sentinel is stored directly as the
handle's error, without logging and without aggregation at the time it is
added (a later non-sentinel AddError may fold the stored sentinel into the
aggregate). -/
theorem AddError_spec (st : St) (h : Nat) (r : gormDB) (e : GoErr)
    (hr : st.dbs[h]? = some r) :
    (e = GoErr.recordNotFound →
      (st.addError h (some e)).errAt h = some (.single .recordNotFound) ∧
      (st.addError h (some e)).trace = st.trace) ∧
    (e ≠ GoErr.recordNotFound →
      (st.addError h (some e)).getErrorsAt h = errAdd (st.getErrorsAt h) e) ∧
    (e ≠ GoErr.recordNotFound → e ∈ st.getErrorsAt h →
      (st.addError h (some e)).getErrorsAt h = st.getErrorsAt h) ∧
    (e ≠ GoErr.recordNotFound → 1 < (errAdd (st.getErrorsAt h) e).length →
      (st.addError h (some e)).errAt h = some (.agg (errAdd (st.getErrorsAt h) e))) := by
  refine ⟨?_, ?_, ?_, ?_⟩
  · intro hrnf
    subst hrnf
    refine ⟨?_, ?_⟩
    · rw [addError_errAt st h r _ hr]
      simp [addErrVal]
    · rw [addError_trace st h r _ hr]
      simp [addErrEvents]
  · intro hne
    exact addError_getErrors st h r e hr hne
  · intro hne hmem
    rw [addError_getErrors st h r e hr hne]
    simp [errAdd, hmem]
  · intro hne hlen
    rw [getErrorsAt_eq st h r hr] at hlen
    rw [addError_errAt st h r e hr, addErrVal_agg r.err e hne hlen,
      getErrorsAt_eq st h r hr]

/-- C5 witness: adding a fresh ordinary error to the concrete handle appends
it to the accumulated list. -/
theorem AddError_spec_witness :
    (stW.addError 0 (some (.generic 1))).getErrorsAt 0 =
      errAdd (stW.getErrorsAt 0) (.generic 1) :=
  (AddError_spec stW 0 recW (.generic 1) rfl).2.1 (by decide)

/-- C5 counterexample: the claim says the record-not-found sentinel is never
combined into an aggregate, but after AddError(ErrRecordNotFound) followed
by AddError of an ordinary error the handle's error is an aggregate whose
list contains the sentinel. -/
theorem AddError_sentinel_in_aggregate_cex :
    ((stW.addError 0 (some .recordNotFound)).addError 0 (some (.generic 1))).errAt 0 =
      some (.agg [.recordNotFound, .generic 1]) ∧
    GoErr.recordNotFound ∈
      ((stW.addError 0 (some .recordNotFound)).addError 0 (some (.generic 1))).getErrorsAt 0 := by
  refine ⟨by decide, by decide⟩

/-- C6: RecordNotFound returns true exactly when the record-not-found
sentinel is present in the accumulated error list exposed by GetErrors; a
handle whose error list does not contain the sentinel has RecordNotFound
false even while its error is non-nil. -/
theorem RecordNotFound_spec (r r2 : gormDB)
    (h2 : GoErr.recordNotFound ∉ r2.GetErrors) (h3 : r2.err ≠ none) :
    (r.RecordNotFound = true ↔ GoErr.recordNotFound ∈ r.GetErrors) ∧
    r2.RecordNotFound = false ∧ r2.err ≠ none := by
  refine ⟨errLoop_eq_true_iff r.GetErrors, ?_, h3⟩
  cases hb : r2.RecordNotFound with
  | false => rfl
  | true => exact absurd ((errLoop_eq_true_iff r2.GetErrors).mp hb) h2

/-- C6 witness: a handle carrying the sentinel reports not-found; a handle
carrying only an ordinary error does not. -/
theorem RecordNotFound_spec_witness :
    recW.RecordNotFound = false ∧ recNF.RecordNotFound = true :=
  ⟨(RecordNotFound_spec recNF recW (by decide) (by decide)).2.1, by decide⟩

/-- C2: on a handle whose underlying connection is not a non-nil transaction
handle (in particular one on which Begin was never called), Commit and
Rollback add the invalid-transaction error to the handle and perform no
call on the underlying connection; both are total in the model, so neither
crashes. -/
theorem Commit_Rollback_guard (st : St) (h : Nat) (r : gormDB) (res : Option GoErr)
    (hr : st.dbs[h]? = some r) (hc : isNonNilTx r.conn = false) :
    (st.Commit h res).1 = h ∧
    connCalls (st.Commit h res).2.trace = connCalls st.trace ∧
    GoErr.invalidTransaction ∈ (st.Commit h res).2.getErrorsAt h ∧
    (st.Rollback h res).1 = h ∧
    connCalls (st.Rollback h res).2.trace = connCalls st.trace ∧
    GoErr.invalidTransaction ∈ (st.Rollback h res).2.getErrorsAt h := by
  have hcom : st.Commit h res = (h, st.addError h (some GoErr.invalidTransaction)) := by
    cases hcn : r.conn with
    | txConn id =>
      rw [hcn] at hc
      simp [isNonNilTx] at hc
    | plainDB id => simp [St.Commit, hr, hcn]
    | nilTx => simp [St.Commit, hr, hcn]
    | noConn => simp [St.Commit, hr, hcn]
  have hrol : st.Rollback h res = (h, st.addError h (some GoErr.invalidTransaction)) := by
    cases hcn : r.conn with
    | txConn id =>
      rw [hcn] at hc
      simp [isNonNilTx] at hc
    | plainDB id => simp [St.Rollback, hr, hcn]
    | nilTx => simp [St.Rollback, hr, hcn]
    | noConn => simp [St.Rollback, hr, hcn]
  have htr : connCalls (st.addError h (some GoErr.invalidTransaction)).trace =
      connCalls st.trace := by
    rw [addError_trace st h r _ hr]
    have h1 : connCalls (st.trace ++ addErrEvents r.logMode GoErr.invalidTransaction) =
        connCalls st.trace ++ connCalls (addErrEvents r.logMode GoErr.invalidTransaction) := by
      unfold connCalls
      simp
    rw [h1, connCalls_addErrEvents]
    simp
  have hmem : GoErr.invalidTransaction ∈
      (st.addError h (some GoErr.invalidTransaction)).getErrorsAt h := by
    rw [addError_getErrors st h r _ hr (by simp)]
    exact mem_errAdd_self _ _
  rw [hcom, hrol]
  exact ⟨rfl, htr, hmem, rfl, htr, hmem⟩

/-- C2 witness: Commit on the concrete never-Begin handle adds the
invalid-transaction error and performs no connection call. -/
theorem Commit_Rollback_guard_witness :
    GoErr.invalidTransaction ∈ (stW.Commit 0 none).2.getErrorsAt 0 ∧
    connCalls (stW.Commit 0 none).2.trace = connCalls stW.trace :=
  ⟨(Commit_Rollback_guard stW 0 recW none rfl rfl).2.2.1,
   (Commit_Rollback_guard stW 0 recW none rfl rfl).2.1⟩

/-
Lookup lemmas for the settings map.
-/

theorem getElem?_getD_some {α : Type} (l : List α) (i : Nat) (d : α)
    (h : i < l.length) : l[i]? = some ((l[i]?).getD d) := by
  induction l generalizing i with
  | nil => simp at h
  | cons a t ih =>
    cases i with
    | zero => simp
    | succ n =>
      simp only [List.getElem?_cons_succ]
      exact ih n (Nat.lt_of_succ_lt_succ h)

theorem lookup_overwrite (m : List (String × GoValue)) (k : String) (v : GoValue)
    (hc : k ∈ m.map Prod.fst) :
    lookupName (m.map fun p => if p.1 = k then (k, v) else p) k = some v := by
  induction m with
  | nil => simp at hc
  | cons p ps ih =>
    by_cases hp : p.1 = k
    · simp [lookupName, hp]
    · have hmem : k ∈ ps.map Prod.fst := by
        rw [List.map_cons] at hc
        rcases (List.mem_cons).mp hc with h1 | h1
        · exact absurd h1.symm hp
        · exact h1
      simp [lookupName, hp, ih hmem]

theorem lookup_overwrite_ne (m : List (String × GoValue)) (k : String) (v : GoValue)
    (k2 : String) (hne : k2 ≠ k) :
    lookupName (m.map fun p => if p.1 = k then (k, v) else p) k2 = lookupName m k2 := by
  induction m with
  | nil => rfl
  | cons p ps ih =>
    by_cases hp : p.1 = k
    · have hkk2 : ¬ k = k2 := fun hx => hne hx.symm
      simp [lookupName, hp, hkk2, ih]
    · simp [lookupName, hp, ih]

theorem lookupName_none (m : List (String × GoValue)) (k : String)
    (h : k ∉ m.map Prod.fst) : lookupName m k = none := by
  induction m with
  | nil => rfl
  | cons p ps ih =>
    have hp : p.1 ≠ k := by
      intro hc
      exact h (by simp [hc])
    have hps : k ∉ ps.map Prod.fst := by
      intro hc
      exact h (by simp [hc])
    simp [lookupName, hp, ih hps]

theorem lookupName_append_none (a b : List (String × GoValue)) (k : String)
    (h : lookupName a k = none) : lookupName (a ++ b) k = lookupName b k := by
  induction a with
  | nil => rfl
  | cons p ps ih =>
    by_cases hp : p.1 = k
    · simp [lookupName, hp] at h
    · simp only [lookupName, hp, if_neg, not_false_iff, List.cons_append] at h ⊢
      exact ih h

theorem lookupName_append_some (a b : List (String × GoValue)) (k : String)
    (w : GoValue) (h : lookupName a k = some w) :
    lookupName (a ++ b) k = some w := by
  induction a with
  | nil => simp [lookupName] at h
  | cons p ps ih =>
    by_cases hp : p.1 = k
    · simp only [lookupName, hp, if_pos, List.cons_append] at h ⊢
      exact h
    · simp only [lookupName, hp, if_neg, not_false_iff, List.cons_append] at h ⊢
      exact ih h

theorem lookupName_assocSet_self (m : List (String × GoValue)) (k : String)
    (v : GoValue) : lookupName (assocSet m k v) k = some v := by
  unfold assocSet
  by_cases hc : k ∈ m.map Prod.fst
  · simp only [hc, if_pos]
    exact lookup_overwrite m k v hc
  · simp only [hc, if_neg, not_false_iff]
    rw [lookupName_append_none _ _ _ (lookupName_none m k hc)]
    simp [lookupName]

theorem lookupName_assocSet_ne (m : List (String × GoValue)) (k : String)
    (v : GoValue) (k2 : String) (hne : k2 ≠ k) :
    lookupName (assocSet m k v) k2 = lookupName m k2 := by
  unfold assocSet
  by_cases hc : k ∈ m.map Prod.fst
  · simp only [hc, if_pos]
    exact lookup_overwrite_ne m k v k2 hne
  · simp only [hc, if_neg, not_false_iff]
    cases hx : lookupName m k2 with
    | some w => exact lookupName_append_some _ _ _ _ hx
    | none =>
      rw [lookupName_append_none _ _ _ hx]
      have hkk2 : ¬ k = k2 := fun hy => hne hy.symm
      simp [lookupName, hkk2]

theorem SetDB_eq (st : St) (h : Nat) (r : gormDB) (name : String) (v : GoValue)
    (hr : st.dbs[h]? = some r) :
    st.SetDB h name v =
      (st.dbs.length,
        { st.cloneAlloc r with
          settings := listUpd (st.cloneAlloc r).settings st.settings.length
            (fun mm => assocSet mm name v) }) := by
  unfold St.SetDB
  rw [Clone_some st h r hr]
  show (st.cloneAlloc r).InstantSet st.dbs.length name v = _
  unfold St.InstantSet
  rw [cloneAlloc_dbs_new]
  rfl

/-- C9: Set clones the handle and then calls InstantSet on the clone,
leaving the original handle's settings unchanged, and Get on the handle
returned by Set yields the value; InstantSet mutates the current handle's
settings in place without cloning; Get is a non-mutating lookup of the
handle's settings map whose result is none (ok = false) exactly on
absence. -/
theorem Set_InstantSet_Get_spec (st : St) (h : Nat) (r : gormDB)
    (name m : String) (v w : GoValue) (hr : st.dbs[h]? = some r)
    (hv : r.valuesRef < st.settings.length) (hm : m ≠ name) :
    st.SetDB h name v = (st.Clone h).2.InstantSet (st.Clone h).1 name v ∧
    (st.SetDB h name v).2.settingsCellOf h = st.settingsCellOf h ∧
    (st.SetDB h name v).2.GetDB (st.SetDB h name v).1 name = some v ∧
    (st.SetDB h name v).2.GetDB (st.SetDB h name v).1 m = st.GetDB h m ∧
    (st.InstantSet h m w).1 = h ∧
    (st.InstantSet h m w).2.dbs = st.dbs ∧
    (st.InstantSet h m w).2.GetDB h m = some w ∧
    st.GetDB h m = lookupName (cloneSettingsOf st r) m := by
  have hlt : h < st.dbs.length := getElem?_some_lt _ _ _ hr
  have hSet := SetDB_eq st h r name v hr
  have hA : (st.SetDB h name v).2.dbs = st.dbs ++ [cloneRec st r] := by
    rw [hSet]
    rfl
  have hB : (st.SetDB h name v).2.settings =
      listUpd (st.settings ++ [cloneSettingsOf st r]) st.settings.length
        (fun mm => assocSet mm name v) := by
    rw [hSet]
    rfl
  have hC : (st.SetDB h name v).1 = st.dbs.length := by
    rw [hSet]
  have hcell2 : (listUpd (st.settings ++ [cloneSettingsOf st r]) st.settings.length
      (fun mm => assocSet mm name v))[st.settings.length]? =
      some (assocSet (cloneSettingsOf st r) name v) := by
    rw [getElem?_listUpd_self, getElem?_concat_len]
    rfl
  have hGet : ∀ k, (st.SetDB h name v).2.GetDB (st.SetDB h name v).1 k =
      lookupName (assocSet (cloneSettingsOf st r) name v) k := by
    intro k
    unfold St.GetDB
    rw [hC, hA, hB, getElem?_concat_len]
    show lookupName (((listUpd (st.settings ++ [cloneSettingsOf st r])
      st.settings.length fun mm => assocSet mm name v)[st.settings.length]?).getD []) k = _
    rw [hcell2]
    rfl
  refine ⟨rfl, ?_, ?_, ?_, ?_, ?_, ?_, ?_⟩
  · unfold St.settingsCellOf
    rw [hA, hB, getElem?_append_lt st.dbs [cloneRec st r] h hlt, hr]
    show some (((listUpd (st.settings ++ [cloneSettingsOf st r]) st.settings.length
      fun mm => assocSet mm name v)[r.valuesRef]?).getD []) =
      some ((st.settings[r.valuesRef]?).getD [])
    rw [getElem?_listUpd_ne _ _ _ _ (Nat.ne_of_gt hv),
      getElem?_append_lt st.settings [cloneSettingsOf st r] r.valuesRef hv]
  · rw [hGet name]
    exact lookupName_assocSet_self _ _ _
  · rw [hGet m, lookupName_assocSet_ne _ _ _ _ hm]
    unfold St.GetDB
    rw [hr]
    rfl
  · simp [St.InstantSet, hr]
  · simp [St.InstantSet, hr, St.updDb]
  · obtain ⟨cell, hcell⟩ : ∃ c, st.settings[r.valuesRef]? = some c :=
      ⟨_, getElem?_getD_some st.settings r.valuesRef [] hv⟩
    simp [St.InstantSet, hr, St.GetDB, getElem?_listUpd_self, hcell,
      lookupName_assocSet_self]
  · simp [St.GetDB, hr, cloneSettingsOf]

/-- C9 witness: the Set, InstantSet and Get behaviour evaluated on the
concrete root handle. -/
theorem Set_InstantSet_Get_spec_witness :
    (stW.SetDB 0 "n" (.vInt 1)).2.GetDB (stW.SetDB 0 "n" (.vInt 1)).1 "n" =
      some (.vInt 1) ∧
    (stW.SetDB 0 "n" (.vInt 1)).2.settingsCellOf 0 = stW.settingsCellOf 0 :=
  ⟨(Set_InstantSet_Get_spec stW 0 recW "n" "k" (.vInt 1) (.vInt 2) rfl (by decide)
      (by decide)).2.2.1,
   (Set_InstantSet_Get_spec stW 0 recW "n" "k" (.vInt 1) (.vInt 2) rfl (by decide)
      (by decide)).2.1⟩

/-
Clone isolation for the condition-building calls (C1).
-/

theorem listUpd_concat_len {α : Type} (l : List α) (c : α) (g : α → α) :
    listUpd (l ++ [c]) l.length g = l ++ [g c] := by
  induction l with
  | nil => rfl
  | cons a t ih => simp [listUpd, ih]

/-- The state after one condition-building call on a handle whose record is
`r`: the clone's allocations, with the fresh Search cell mutated by `g` and
the fresh handle record post-processed by `u` (`u` is the identity for the
pure Search-mutating calls; Model and Table also touch the clone's value). -/
def buildAlloc (st : St) (r : gormDB) (g : Search → Search) (u : gormDB → gormDB) : St :=
  { st with
    dbs := st.dbs ++ [u (cloneRec st r)],
    searches := st.searches ++ [g (cloneSearchOf st r)],
    settings := st.settings ++ [cloneSettingsOf st r],
    dialects := st.dialects ++ [cloneDialectOf st r] }

theorem buildAlloc_dbs_new (st : St) (r : gormDB) (g : Search → Search)
    (u : gormDB → gormDB) :
    (buildAlloc st r g u).dbs[st.dbs.length]? = some (u (cloneRec st r)) := by
  simp [buildAlloc]

theorem buildAlloc_dbs_old (st : St) (r : gormDB) (g : Search → Search)
    (u : gormDB → gormDB) (k : Nat) (hk : k < st.dbs.length) :
    (buildAlloc st r g u).dbs[k]? = st.dbs[k]? :=
  getElem?_append_lt _ _ _ hk

theorem buildAlloc_searches_new (st : St) (r : gormDB) (g : Search → Search)
    (u : gormDB → gormDB) :
    (buildAlloc st r g u).searches[st.searches.length]? =
      some (g (cloneSearchOf st r)) := by
  simp [buildAlloc]

theorem buildAlloc_dialects_new (st : St) (r : gormDB) (g : Search → Search)
    (u : gormDB → gormDB) :
    (buildAlloc st r g u).dialects[st.dialects.length]? =
      some (cloneDialectOf st r) := by
  simp [buildAlloc]

theorem cloneMutS_eq (st : St) (h : Nat) (r : gormDB) (g : Search → Search)
    (hr : st.dbs[h]? = some r) :
    st.cloneMutS h g = (st.dbs.length, buildAlloc st r g id) := by
  unfold St.cloneMutS
  rw [Clone_some st h r hr]
  show (st.dbs.length, (st.cloneAlloc r).mutSearch st.dbs.length g) = _
  unfold St.mutSearch St.searchRefOf
  rw [cloneAlloc_dbs_new]
  show (st.dbs.length,
    { st.cloneAlloc r with
      searches := listUpd (st.searches ++ [cloneSearchOf st r]) st.searches.length g }) = _
  rw [listUpd_concat_len]
  rfl

theorem ModelDB_eq (st : St) (h : Nat) (r : gormDB) (v : GoValue)
    (hr : st.dbs[h]? = some r) :
    st.ModelDB h v =
      (st.dbs.length, buildAlloc st r id (fun rr => { rr with value := some v })) := by
  unfold St.ModelDB
  rw [Clone_some st h r hr]
  show (st.dbs.length, (st.cloneAlloc r).updDb st.dbs.length
    (fun rr => { rr with value := some v })) = _
  unfold St.updDb
  show (st.dbs.length,
    { st.cloneAlloc r with
      dbs := listUpd (st.dbs ++ [cloneRec st r]) st.dbs.length
        (fun rr => { rr with value := some v }) }) = _
  rw [listUpd_concat_len]
  rfl

theorem TableDB_eq (st : St) (h : Nat) (r : gormDB) (name : String)
    (hr : st.dbs[h]? = some r) :
    st.TableDB h name =
      (st.dbs.length, buildAlloc st r (fun s => s.Table name)
        (fun rr => { rr with value := none })) := by
  unfold St.TableDB
  rw [Clone_some st h r hr]
  show (st.dbs.length, ((st.cloneAlloc r).mutSearch st.dbs.length
    (fun s => s.Table name)).updDb st.dbs.length (fun rr => { rr with value := none })) = _
  unfold St.mutSearch St.searchRefOf
  rw [cloneAlloc_dbs_new]
  show (st.dbs.length,
    ({ st.cloneAlloc r with
       searches := listUpd (st.searches ++ [cloneSearchOf st r]) st.searches.length
         (fun s => s.Table name) }).updDb st.dbs.length
      (fun rr => { rr with value := none })) = _
  unfold St.updDb
  show (st.dbs.length,
    { st.cloneAlloc r with
      searches := listUpd (st.searches ++ [cloneSearchOf st r]) st.searches.length
        (fun s => s.Table name),
      dbs := listUpd (st.dbs ++ [cloneRec st r]) st.dbs.length
        (fun rr => { rr with value := none }) }) = _
  rw [listUpd_concat_len, listUpd_concat_len]
  rfl

theorem searchCellOf_mutSearch_other (st2 : St) (a b : Nat) (g2 : Search → Search)
    (hdiff : ∀ i j, st2.searchRefOf a = some i → st2.searchRefOf b = some j → j ≠ i) :
    (st2.mutSearch b g2).searchCellOf a = st2.searchCellOf a := by
  unfold St.mutSearch
  cases hb : st2.searchRefOf b with
  | none => rfl
  | some j =>
    unfold St.searchCellOf
    show (st2.dbs[a]?).bind
        (fun rr => rr.searchRef.bind fun i => (listUpd st2.searches j g2)[i]?) =
      (st2.dbs[a]?).bind (fun rr => rr.searchRef.bind fun i => st2.searches[i]?)
    cases ha : st2.dbs[a]? with
    | none => rfl
    | some rr =>
      show rr.searchRef.bind (fun i => (listUpd st2.searches j g2)[i]?) =
        rr.searchRef.bind fun i => st2.searches[i]?
      cases hi : rr.searchRef with
      | none => rfl
      | some i =>
        show (listUpd st2.searches j g2)[i]? = st2.searches[i]?
        exact getElem?_listUpd_ne _ _ _ _
          (hdiff i j (by unfold St.searchRefOf; rw [ha]; exact hi) hb)

theorem buildAlloc_props (st : St) (h : Nat) (r : gormDB) (g : Search → Search)
    (u : gormDB → gormDB) (g2 : Search → Search)
    (hr : st.dbs[h]? = some r)
    (hsr : ∀ i, r.searchRef = some i → i < st.searches.length)
    (hu1 : (u (cloneRec st r)).searchRef = some st.searches.length)
    (hu2 : (u (cloneRec st r)).conn = r.conn)
    (hu3 : (u (cloneRec st r)).parentRef = r.parentRef)
    (hu4 : (u (cloneRec st r)).dialectRef = st.dialects.length) :
    h ≠ st.dbs.length ∧
    ((buildAlloc st r g u).dbs[st.dbs.length]?).map gormDB.conn = some r.conn ∧
    ((buildAlloc st r g u).dbs[st.dbs.length]?).map gormDB.parentRef = some r.parentRef ∧
    ((buildAlloc st r g u).dbs[st.dbs.length]?).map gormDB.dialectRef =
      some st.dialects.length ∧
    ((buildAlloc st r g u).dialects[st.dialects.length]?).map Dialect.name =
      some (((st.dialects[r.dialectRef]?).getD {}).name) ∧
    ((buildAlloc st r g u).mutSearch st.dbs.length g2).searchCellOf h =
      (buildAlloc st r g u).searchCellOf h ∧
    ((buildAlloc st r g u).mutSearch h g2).searchCellOf st.dbs.length =
      (buildAlloc st r g u).searchCellOf st.dbs.length := by
  have hlt : h < st.dbs.length := getElem?_some_lt _ _ _ hr
  have hrefh : (buildAlloc st r g u).searchRefOf h = r.searchRef := by
    unfold St.searchRefOf
    rw [buildAlloc_dbs_old st r g u h hlt, hr]
    rfl
  have hrefc : (buildAlloc st r g u).searchRefOf st.dbs.length =
      some st.searches.length := by
    unfold St.searchRefOf
    rw [buildAlloc_dbs_new]
    simp [hu1]
  refine ⟨Nat.ne_of_lt hlt, ?_, ?_, ?_, ?_, ?_, ?_⟩
  · rw [buildAlloc_dbs_new]
    simp [hu2]
  · rw [buildAlloc_dbs_new]
    simp [hu3]
  · rw [buildAlloc_dbs_new]
    simp [hu4]
  · rw [buildAlloc_dialects_new]
    simp [cloneDialectOf]
  · refine searchCellOf_mutSearch_other _ _ _ _ ?_
    intro i j hi hj
    rw [hrefh] at hi
    rw [hrefc] at hj
    have hj2 : j = st.searches.length := by
      injection hj.symm
    have hi2 : i < st.searches.length := hsr i hi
    omega
  · refine searchCellOf_mutSearch_other _ _ _ _ ?_
    intro i j hi hj
    rw [hrefc] at hi
    rw [hrefh] at hj
    have hi2 : i = st.searches.length := by
      injection hi.symm
    have hj2 : j < st.searches.length := hsr j hj
    omega

/-- C1 (amended): every condition-building call returns a fresh handle
obtained by cloning the receiver — deep-copying the condition set into a
fresh cell, sharing the connection and parent by reference, and re-creating
the dialect as a fresh instance carrying the old dialect's name — and
applying its mutation to the clone, so that mutating the new handle's
conditions never changes the receiver's observable condition set and vice
versa. -/
theorem buildCall_clone_isolation (st : St) (h : Nat) (r : gormDB)
    (call : BuildCall) (g2 : Search → Search)
    (hr : st.dbs[h]? = some r)
    (hsr : ∀ i, r.searchRef = some i → i < st.searches.length) :
    (st.applyBuild h call).1 = st.dbs.length ∧
    h ≠ (st.applyBuild h call).1 ∧
    ((st.applyBuild h call).2.dbs[(st.applyBuild h call).1]?).map gormDB.conn =
      some r.conn ∧
    ((st.applyBuild h call).2.dbs[(st.applyBuild h call).1]?).map gormDB.parentRef =
      some r.parentRef ∧
    ((st.applyBuild h call).2.dbs[(st.applyBuild h call).1]?).map gormDB.dialectRef =
      some st.dialects.length ∧
    ((st.applyBuild h call).2.dialects[st.dialects.length]?).map Dialect.name =
      some (((st.dialects[r.dialectRef]?).getD {}).name) ∧
    ((st.applyBuild h call).2.mutSearch (st.applyBuild h call).1 g2).searchCellOf h =
      (st.applyBuild h call).2.searchCellOf h ∧
    ((st.applyBuild h call).2.mutSearch h g2).searchCellOf (st.applyBuild h call).1 =
      (st.applyBuild h call).2.searchCellOf (st.applyBuild h call).1 := by
  cases call with
  | bWhere q args =>
    have he : st.applyBuild h (.bWhere q args) =
        (st.dbs.length, buildAlloc st r (fun s => s.Where q args) id) :=
      cloneMutS_eq st h r _ hr
    rw [he]
    exact ⟨rfl, buildAlloc_props st h r _ id g2 hr hsr rfl rfl rfl rfl⟩
  | bOr q args =>
    have he : st.applyBuild h (.bOr q args) =
        (st.dbs.length, buildAlloc st r (fun s => s.OrS q args) id) :=
      cloneMutS_eq st h r _ hr
    rw [he]
    exact ⟨rfl, buildAlloc_props st h r _ id g2 hr hsr rfl rfl rfl rfl⟩
  | bNot q args =>
    have he : st.applyBuild h (.bNot q args) =
        (st.dbs.length, buildAlloc st r (fun s => s.NotS q args) id) :=
      cloneMutS_eq st h r _ hr
    rw [he]
    exact ⟨rfl, buildAlloc_props st h r _ id g2 hr hsr rfl rfl rfl rfl⟩
  | bLimit n =>
    have he : st.applyBuild h (.bLimit n) =
        (st.dbs.length, buildAlloc st r (fun s => s.Limit n) id) :=
      cloneMutS_eq st h r _ hr
    rw [he]
    exact ⟨rfl, buildAlloc_props st h r _ id g2 hr hsr rfl rfl rfl rfl⟩
  | bOffset n =>
    have he : st.applyBuild h (.bOffset n) =
        (st.dbs.length, buildAlloc st r (fun s => s.Offset n) id) :=
      cloneMutS_eq st h r _ hr
    rw [he]
    exact ⟨rfl, buildAlloc_props st h r _ id g2 hr hsr rfl rfl rfl rfl⟩
  | bOrder v reorder =>
    have he : st.applyBuild h (.bOrder v reorder) =
        (st.dbs.length, buildAlloc st r (fun s => s.Order v reorder) id) :=
      cloneMutS_eq st h r _ hr
    rw [he]
    exact ⟨rfl, buildAlloc_props st h r _ id g2 hr hsr rfl rfl rfl rfl⟩
  | bSelect q args =>
    have he : st.applyBuild h (.bSelect q args) =
        (st.dbs.length, buildAlloc st r (fun s => s.Select q args) id) :=
      cloneMutS_eq st h r _ hr
    rw [he]
    exact ⟨rfl, buildAlloc_props st h r _ id g2 hr hsr rfl rfl rfl rfl⟩
  | bOmit cols =>
    have he : st.applyBuild h (.bOmit cols) =
        (st.dbs.length, buildAlloc st r (fun s => s.Omit cols) id) :=
      cloneMutS_eq st h r _ hr
    rw [he]
    exact ⟨rfl, buildAlloc_props st h r _ id g2 hr hsr rfl rfl rfl rfl⟩
  | bGroup gq =>
    have he : st.applyBuild h (.bGroup gq) =
        (st.dbs.length, buildAlloc st r (fun s => s.Group gq) id) :=
      cloneMutS_eq st h r _ hr
    rw [he]
    exact ⟨rfl, buildAlloc_props st h r _ id g2 hr hsr rfl rfl rfl rfl⟩
  | bHaving q args =>
    have he : st.applyBuild h (.bHaving q args) =
        (st.dbs.length, buildAlloc st r (fun s => s.Having q args) id) :=
      cloneMutS_eq st h r _ hr
    rw [he]
    exact ⟨rfl, buildAlloc_props st h r _ id g2 hr hsr rfl rfl rfl rfl⟩
  | bJoins q args =>
    have he : st.applyBuild h (.bJoins q args) =
        (st.dbs.length, buildAlloc st r (fun s => s.Joins (.vStr q) args) id) :=
      cloneMutS_eq st h r _ hr
    rw [he]
    exact ⟨rfl, buildAlloc_props st h r _ id g2 hr hsr rfl rfl rfl rfl⟩
  | bPreload col conds =>
    have he : st.applyBuild h (.bPreload col conds) =
        (st.dbs.length, buildAlloc st r (fun s => s.Preload col conds) id) :=
      cloneMutS_eq st h r _ hr
    rw [he]
    exact ⟨rfl, buildAlloc_props st h r _ id g2 hr hsr rfl rfl rfl rfl⟩
  | bAttrs vs =>
    have he : st.applyBuild h (.bAttrs vs) =
        (st.dbs.length, buildAlloc st r (fun s => s.Attrs vs) id) :=
      cloneMutS_eq st h r _ hr
    rw [he]
    exact ⟨rfl, buildAlloc_props st h r _ id g2 hr hsr rfl rfl rfl rfl⟩
  | bAssign vs =>
    have he : st.applyBuild h (.bAssign vs) =
        (st.dbs.length, buildAlloc st r (fun s => s.Assign vs) id) :=
      cloneMutS_eq st h r _ hr
    rw [he]
    exact ⟨rfl, buildAlloc_props st h r _ id g2 hr hsr rfl rfl rfl rfl⟩
  | bUnscoped =>
    have he : st.applyBuild h .bUnscoped =
        (st.dbs.length, buildAlloc st r Search.setUnscoped id) :=
      cloneMutS_eq st h r _ hr
    rw [he]
    exact ⟨rfl, buildAlloc_props st h r _ id g2 hr hsr rfl rfl rfl rfl⟩
  | bTable name =>
    have he : st.applyBuild h (.bTable name) =
        (st.dbs.length, buildAlloc st r (fun s => s.Table name)
          (fun rr => { rr with value := none })) :=
      TableDB_eq st h r name hr
    rw [he]
    exact ⟨rfl, buildAlloc_props st h r _ _ g2 hr hsr rfl rfl rfl rfl⟩
  | bRaw sql vals =>
    have he : st.applyBuild h (.bRaw sql vals) =
        (st.dbs.length, buildAlloc st r (fun s => (s.RawMode true).Where (.vStr sql) vals) id) :=
      cloneMutS_eq st h r _ hr
    rw [he]
    exact ⟨rfl, buildAlloc_props st h r _ id g2 hr hsr rfl rfl rfl rfl⟩
  | bModel v =>
    have he : st.applyBuild h (.bModel v) =
        (st.dbs.length, buildAlloc st r id (fun rr => { rr with value := some v })) :=
      ModelDB_eq st h r v hr
    rw [he]
    exact ⟨rfl, buildAlloc_props st h r _ _ g2 hr hsr rfl rfl rfl rfl⟩

/-- The claim's assertion that a condition-building call shares the dialect
by reference between the receiver and the returned handle. -/
def sharesDialectRef (st : St) (h : Nat) (call : BuildCall) : Bool :=
  ((st.applyBuild h call).2.dbs[h]?).map gormDB.dialectRef ==
    ((st.applyBuild h call).2.dbs[(st.applyBuild h call).1]?).map gormDB.dialectRef

/-- C1 counterexample: on the concrete root handle, Limit(5) returns a
handle whose dialect is a freshly created instance (`newDialect` in Clone,
src line 955), not the receiver's dialect shared by reference. -/
theorem buildCall_shares_dialect_cex : sharesDialectRef stW 0 (.bLimit 5) = false := by
  decide

/-- C1 witness: the isolation and sharing facts evaluated on the concrete
root handle for a Where call, with a Limit mutation applied afterwards. -/
theorem buildCall_clone_isolation_witness :
    ((stW.applyBuild 0 (.bWhere (.vInt 1) [])).2.mutSearch
        (stW.applyBuild 0 (.bWhere (.vInt 1) [])).1 Search.setUnscoped).searchCellOf 0 =
      (stW.applyBuild 0 (.bWhere (.vInt 1) [])).2.searchCellOf 0 ∧
    ((stW.applyBuild 0 (.bWhere (.vInt 1) [])).2.dbs[(stW.applyBuild 0
        (.bWhere (.vInt 1) [])).1]?).map gormDB.conn = some recW.conn :=
  ⟨(buildCall_clone_isolation stW 0 recW (.bWhere (.vInt 1) []) Search.setUnscoped rfl
      (fun i hi => by injection hi with h2; subst h2; decide)).2.2.2.2.2.2.1,
   (buildCall_clone_isolation stW 0 recW (.bWhere (.vInt 1) []) Search.setUnscoped rfl
      (fun i hi => by injection hi with h2; subst h2; decide)).2.2.1⟩

/-
Callback registry copy-on-write (C7).
-/

theorem chainOf_addStep (cb : Callback) (k : ChainKind) (name : String) :
    (cb.addStep k name).chainOf k = cb.chainOf k ++ [name] := by
  cases k <;> rfl

/-- C7 (amended): `Callback()` installs a fresh clone of the registry on the
SHARED parent and returns it, so registering a step on the registry obtained
from h1.Callback() is visible to operations executed through every handle h2
sharing h1's root; only the previously installed registry object (e.g. the
process-wide default) is left unchanged. -/
theorem Callback_register_spec (st : St) (h1 h2 p j : Nat)
    (r1 r2 rp : gormDB) (reg : Callback) (k : ChainKind) (name : String)
    (hd1 : st.dbs[h1]? = some r1) (hd2 : st.dbs[h2]? = some r2)
    (hp1 : r1.parentRef = p) (hp2 : r2.parentRef = p)
    (hdp : st.dbs[p]? = some rp) (hrpp : rp.parentRef = p)
    (hcb : rp.callbacksRef = some j) (hreg : st.cbs[j]? = some reg) :
    ((st.CallbackDB h1).2.Register (st.CallbackDB h1).1 k name).chainUsedBy h2 k =
      reg.chainOf k ++ [name] ∧
    ((st.CallbackDB h1).2.Register (st.CallbackDB h1).1 k name).cbs[j]? = some reg := by
  have hjlt : j < st.cbs.length := getElem?_some_lt _ _ _ hreg
  have hcbeq : st.CallbackDB h1 =
      (st.cbs.length,
        { st with
          cbs := st.cbs ++ [reg],
          dbs := listUpd st.dbs p
            (fun q => { q with callbacksRef := some st.cbs.length }) }) := by
    simp [St.CallbackDB, hd1, hp1, hdp, hcb, hreg]
  have hregeq : ((st.CallbackDB h1).2.Register (st.CallbackDB h1).1 k name) =
      { st with
        cbs := st.cbs ++ [reg.addStep k name],
        dbs := listUpd st.dbs p
          (fun q => { q with callbacksRef := some st.cbs.length }) } := by
    rw [hcbeq]
    unfold St.Register
    show { st with
      cbs := listUpd (st.cbs ++ [reg]) st.cbs.length (fun cb => cb.addStep k name),
      dbs := listUpd st.dbs p
        (fun q => { q with callbacksRef := some st.cbs.length }) } = _
    rw [listUpd_concat_len]
  have hDp : (listUpd st.dbs p
      (fun q => { q with callbacksRef := some st.cbs.length }))[p]? =
      some { rp with callbacksRef := some st.cbs.length } := by
    rw [getElem?_listUpd_self, hdp]
    rfl
  refine ⟨?_, ?_⟩
  · rw [hregeq]
    by_cases hpp : h2 = p
    · subst hpp
      simp [St.chainUsedBy, hDp, hrpp, getElem?_concat_len, chainOf_addStep]
    · have hD2 : (listUpd st.dbs p
          (fun q => { q with callbacksRef := some st.cbs.length }))[h2]? = some r2 := by
        rw [getElem?_listUpd_ne _ _ _ _ (fun hx => hpp hx.symm)]
        exact hd2
      simp [St.chainUsedBy, hD2, hp2, hDp, getElem?_concat_len, chainOf_addStep]
  · rw [hregeq]
    show (st.cbs ++ [reg.addStep k name])[j]? = some reg
    rw [getElem?_append_lt _ _ _ hjlt]
    exact hreg

/-
Concrete two-clones-of-one-root state for C7.
-/

def rootC7 : gormDB :=
  { conn := .plainDB 0, searchRef := some 0, valuesRef := 0, parentRef := 0,
    callbacksRef := some 0, dialectRef := 0 }

def cloneC7a : gormDB :=
  { conn := .plainDB 0, searchRef := some 1, valuesRef := 1, parentRef := 0,
    callbacksRef := none, dialectRef := 0 }

def cloneC7b : gormDB :=
  { conn := .plainDB 0, searchRef := some 2, valuesRef := 2, parentRef := 0,
    callbacksRef := none, dialectRef := 0 }

def regC7 : Callback := { creates := ["create"], queries := ["preload", "query"] }

def stC7 : St :=
  { dbs := [rootC7, cloneC7a, cloneC7b], searches := [{}, {}, {}],
    settings := [[], [], []], cbs := [regC7],
    dialects := [{ name := "s", conn := .plainDB 0 }], trace := [] }

/-- The trivial external environment: every chain run succeeds with zero
rows. -/
def envNone : Env := fun _ _ => {}

/-- C7 counterexample: registering a step on the registry obtained from
h1.Callback() changes the registry used by operations executed through h2
(a second clone of the same root): the chain h2's Find executes afterwards
contains the newly registered step. -/
theorem Callback_mutation_visible_cex :
    ((stC7.CallbackDB 1).2.Register (stC7.CallbackDB 1).1 .queries "x").chainUsedBy
        2 .queries ≠ stC7.chainUsedBy 2 .queries ∧
    ((((stC7.CallbackDB 1).2.Register (stC7.CallbackDB 1).1 .queries "x").Find
        envNone 2 none []).2.trace =
      [.chain .queries ["preload", "query", "x"]]) := by
  refine ⟨by decide, by decide⟩

/-- C7 witness: the amended visibility and old-registry-preservation facts
evaluated on the concrete two-clone state. -/
theorem Callback_register_spec_witness :
    ((stC7.CallbackDB 1).2.Register (stC7.CallbackDB 1).1 .creates "x").chainUsedBy
        2 .creates = regC7.chainOf .creates ++ ["x"] ∧
    ((stC7.CallbackDB 1).2.Register (stC7.CallbackDB 1).1 .creates "x").cbs[0]? =
      some regC7 :=
  Callback_register_spec stC7 1 2 0 0 cloneC7a cloneC7b rootC7 regC7 .creates "x"
    rfl rfl rfl rfl rfl rfl rfl rfl

/-
Schema operations (C8): the unscoped flag carried by each scope.
-/

/-- The handle's Search cell exists and its unscoped flag has the given
value. -/
@[reducible]
def SearchFlagAt (st : St) (b : Nat) (flag : Bool) : Prop :=
  ∃ r i s, st.dbs[b]? = some r ∧ r.searchRef = some i ∧ st.searches[i]? = some s ∧
    s.unscoped = flag

theorem NewScope_eq (st : St) (b : Nat) (r : gormDB) (hr : st.dbs[b]? = some r)
    (v : Option GoValue) :
    st.NewScope b v =
      (⟨st.dbs.length, cloneSearchOf st r, v⟩,
        (st.cloneAlloc r).updDb st.dbs.length (fun rr => { rr with value := v })) := by
  have hsc : ((st.cloneAlloc r).updDb st.dbs.length
      (fun rr => { rr with value := v })).searchCellOf st.dbs.length =
      some (cloneSearchOf st r) := by
    unfold St.searchCellOf
    rw [updDb_dbs_self, cloneAlloc_dbs_new]
    show (st.cloneAlloc r).searches[st.searches.length]? = some (cloneSearchOf st r)
    exact cloneAlloc_searches_new st r
  unfold St.NewScope
  rw [Clone_some st b r hr]
  show ((⟨st.dbs.length,
      (((st.cloneAlloc r).updDb st.dbs.length
        (fun rr => { rr with value := v })).searchCellOf st.dbs.length).getD {}, v⟩ : Scope),
    (st.cloneAlloc r).updDb st.dbs.length (fun rr => { rr with value := v })) = _
  rw [hsc]
  rfl

theorem SearchFlagAt_addTrace (st : St) (es : List Event) (b : Nat) (flag : Bool) :
    SearchFlagAt (st.addTrace es) b flag ↔ SearchFlagAt st b flag := Iff.rfl

theorem SearchFlagAt_NewScope (st : St) (b : Nat) (v : Option GoValue) (flag : Bool)
    (hP : SearchFlagAt st b flag) :
    (st.NewScope b v).1.search.unscoped = flag ∧
    (st.NewScope b v).2.trace = st.trace ∧
    SearchFlagAt (st.NewScope b v).2 (st.NewScope b v).1.db flag := by
  obtain ⟨r, i, s, hr, hi, hs, hflag⟩ := hP
  have hcs : cloneSearchOf st r = s := by
    simp [cloneSearchOf, hi, hs]
  rw [NewScope_eq st b r hr v]
  refine ⟨?_, rfl, ?_⟩
  · show (cloneSearchOf st r).unscoped = flag
    rw [hcs]
    exact hflag
  · show SearchFlagAt ((st.cloneAlloc r).updDb st.dbs.length
      (fun rr => { rr with value := v })) st.dbs.length flag
    refine ⟨{ cloneRec st r with value := v }, st.searches.length, s, ?_, rfl, ?_, hflag⟩
    · rw [updDb_dbs_self, cloneAlloc_dbs_new]
      rfl
    · show (st.cloneAlloc r).searches[st.searches.length]? = some s
      rw [cloneAlloc_searches_new, hcs]

theorem SearchFlagAt_cloneAlloc (st : St) (b : Nat) (r : gormDB) (flag : Bool)
    (hr : st.dbs[b]? = some r) (hP : SearchFlagAt st b flag) :
    SearchFlagAt (st.cloneAlloc r) st.dbs.length flag := by
  obtain ⟨r0, i, s, hr0, hi, hs, hflag⟩ := hP
  have hrr : r0 = r := by
    rw [hr] at hr0
    injection hr0 with he
    exact he.symm
  rw [hrr] at hi
  refine ⟨cloneRec st r, st.searches.length, cloneSearchOf st r,
    cloneAlloc_dbs_new st r, rfl, cloneAlloc_searches_new st r, ?_⟩
  simp [cloneSearchOf, hi, hs, hflag]

theorem SearchFlagAt_TableDB (st : St) (b : Nat) (r : gormDB) (name : String)
    (flag : Bool) (hr : st.dbs[b]? = some r) (hP : SearchFlagAt st b flag) :
    (st.TableDB b name).2.trace = st.trace ∧
    SearchFlagAt (st.TableDB b name).2 (st.TableDB b name).1 flag := by
  obtain ⟨r0, i, s, hr0, hi, hs, hflag⟩ := hP
  have hrr : r0 = r := by
    rw [hr] at hr0
    injection hr0 with he
    exact he.symm
  rw [hrr] at hi
  rw [TableDB_eq st b r name hr]
  refine ⟨rfl, { cloneRec st r with value := none }, st.searches.length,
    Search.Table (cloneSearchOf st r) name, buildAlloc_dbs_new st r _ _, rfl,
    buildAlloc_searches_new st r _ _, ?_⟩
  show (cloneSearchOf st r).unscoped = flag
  simp [cloneSearchOf, hi, hs, hflag]

theorem ddlFold_trace (vs : List GoValue) :
    ∀ (st : St) (b : Nat) (opName : String) (flag : Bool), SearchFlagAt st b flag →
    (st.ddlFold b vs opName).2.trace =
      st.trace ++ vs.map (fun _ => Event.ddl opName flag) := by
  induction vs with
  | nil =>
    intro st b opName flag _
    simp [St.ddlFold]
  | cons v rest ih =>
    intro st b opName flag hP
    obtain ⟨hflag, htr, hP2⟩ := SearchFlagAt_NewScope st b (some v) flag hP
    show (St.ddlFold ((st.NewScope b (some v)).2.addTrace
        [.ddl opName (st.NewScope b (some v)).1.search.unscoped])
      (st.NewScope b (some v)).1.db rest opName).2.trace = _
    rw [ih _ _ opName flag ((SearchFlagAt_addTrace _ _ _ _).mpr hP2)]
    rw [addTrace_trace, htr, hflag]
    simp

theorem dropFold_trace (vs : List GoValue) :
    ∀ (st : St) (b : Nat) (flag : Bool), SearchFlagAt st b flag →
    (st.dropFold b vs).2.trace =
      st.trace ++ vs.map (fun _ => Event.ddl "dropTable" flag) := by
  induction vs with
  | nil =>
    intro st b flag _
    simp [St.dropFold]
  | cons v rest ih =>
    intro st b flag hP
    have hstep : ∀ (t : Nat × St), t.2.trace = st.trace → SearchFlagAt t.2 t.1 flag →
        (St.dropFold ((t.2.NewScope t.1 (some v)).2.addTrace
            [.ddl "dropTable" (t.2.NewScope t.1 (some v)).1.search.unscoped])
          (t.2.NewScope t.1 (some v)).1.db rest).2.trace =
        st.trace ++ (v :: rest).map (fun _ => Event.ddl "dropTable" flag) := by
      intro t htt hPt
      obtain ⟨hflag, htr, hP2⟩ := SearchFlagAt_NewScope t.2 t.1 (some v) flag hPt
      rw [ih _ _ flag ((SearchFlagAt_addTrace _ _ _ _).mpr hP2)]
      rw [addTrace_trace, htr, hflag, htt]
      simp
    cases v with
    | vStr name =>
      obtain ⟨r0, i, s, hr0, hi, hs, hflag0⟩ := hP
      obtain ⟨htr1, hP1⟩ := SearchFlagAt_TableDB st b r0 name flag hr0
        ⟨r0, i, s, hr0, hi, hs, hflag0⟩
      exact hstep (st.TableDB b name) htr1 hP1
    | vNil => exact hstep (b, st) rfl hP
    | vInt n => exact hstep (b, st) rfl hP
    | vBool bb => exact hstep (b, st) rfl hP
    | vRec pk => exact hstep (b, st) rfl hP

/-- C8 (amended): every schema operation is a direct structural statement
against one Scope per target value with no callback chain run; CreateTable,
AutoMigrate, AddIndex and AddUniqueIndex force Unscoped, while DropTable,
RemoveIndex, AddForeignKey and RemoveForeignKey run with the receiver's
existing scoping flag. -/
theorem Schema_ops_spec (st : St) (h : Nat) (r : gormDB) (vs : List GoValue)
    (idx fk : String) (flag : Bool)
    (hr : st.dbs[h]? = some r) (hsf : SearchFlagAt st h flag) :
    (st.CreateTable h vs).2.trace =
      st.trace ++ vs.map (fun _ => Event.ddl "createTable" true) ∧
    (st.AutoMigrate h vs).2.trace =
      st.trace ++ vs.map (fun _ => Event.ddl "autoMigrate" true) ∧
    (st.AddIndex h idx).2.trace =
      st.trace ++ [.ddl (String.append "addIndex:" idx) true] ∧
    (st.AddUniqueIndex h idx).2.trace =
      st.trace ++ [.ddl (String.append "addUniqueIndex:" idx) true] ∧
    (st.DropTable h vs).2.trace =
      st.trace ++ vs.map (fun _ => Event.ddl "dropTable" flag) ∧
    (st.RemoveIndex h idx).2.trace =
      st.trace ++ [.ddl (String.append "removeIndex:" idx) flag] ∧
    (st.AddForeignKey h fk).2.trace =
      st.trace ++ [.ddl (String.append "addForeignKey:" fk) flag] ∧
    (st.RemoveForeignKey h fk).2.trace =
      st.trace ++ [.ddl (String.append "removeForeignKey:" fk) flag] := by
  have hu : st.UnscopedDB h = (st.dbs.length, buildAlloc st r Search.setUnscoped id) :=
    cloneMutS_eq st h r _ hr
  have hBA : SearchFlagAt (buildAlloc st r Search.setUnscoped id) st.dbs.length true :=
    ⟨cloneRec st r, st.searches.length, Search.setUnscoped (cloneSearchOf st r),
      buildAlloc_dbs_new st r _ _, rfl, buildAlloc_searches_new st r _ _, rfl⟩
  have hCA : SearchFlagAt (st.cloneAlloc r) st.dbs.length flag :=
    SearchFlagAt_cloneAlloc st h r flag hr hsf
  refine ⟨?_, ?_, ?_, ?_, ?_, ?_, ?_, ?_⟩
  · unfold St.CreateTable
    rw [hu]
    show (St.ddlFold (buildAlloc st r Search.setUnscoped id) st.dbs.length vs
      "createTable").2.trace = _
    rw [ddlFold_trace vs _ _ _ true hBA]
    rfl
  · unfold St.AutoMigrate
    rw [hu]
    show (St.ddlFold (buildAlloc st r Search.setUnscoped id) st.dbs.length vs
      "autoMigrate").2.trace = _
    rw [ddlFold_trace vs _ _ _ true hBA]
    rfl
  · obtain ⟨hflag3, htr3, _⟩ := SearchFlagAt_NewScope
      (buildAlloc st r Search.setUnscoped id) st.dbs.length
      ((st.dbs[h]?).bind gormDB.value) true hBA
    unfold St.AddIndex
    rw [hu]
    show (((buildAlloc st r Search.setUnscoped id).NewScope st.dbs.length
        ((st.dbs[h]?).bind gormDB.value)).2.addTrace
      [.ddl (String.append "addIndex:" idx)
        (((buildAlloc st r Search.setUnscoped id).NewScope st.dbs.length
          ((st.dbs[h]?).bind gormDB.value)).1.search.unscoped)]).trace = _
    rw [addTrace_trace, htr3, hflag3]
    rfl
  · obtain ⟨hflag4, htr4, _⟩ := SearchFlagAt_NewScope
      (buildAlloc st r Search.setUnscoped id) st.dbs.length
      ((st.dbs[h]?).bind gormDB.value) true hBA
    unfold St.AddUniqueIndex
    rw [hu]
    show (((buildAlloc st r Search.setUnscoped id).NewScope st.dbs.length
        ((st.dbs[h]?).bind gormDB.value)).2.addTrace
      [.ddl (String.append "addUniqueIndex:" idx)
        (((buildAlloc st r Search.setUnscoped id).NewScope st.dbs.length
          ((st.dbs[h]?).bind gormDB.value)).1.search.unscoped)]).trace = _
    rw [addTrace_trace, htr4, hflag4]
    rfl
  · unfold St.DropTable
    rw [Clone_some st h r hr]
    show (St.dropFold (st.cloneAlloc r) st.dbs.length vs).2.trace = _
    rw [dropFold_trace vs _ _ flag hCA]
    rfl
  · obtain ⟨hflag6, htr6, _⟩ := SearchFlagAt_NewScope st h
      ((st.dbs[h]?).bind gormDB.value) flag hsf
    unfold St.RemoveIndex
    show ((st.NewScope h ((st.dbs[h]?).bind gormDB.value)).2.addTrace
      [.ddl (String.append "removeIndex:" idx)
        ((st.NewScope h ((st.dbs[h]?).bind gormDB.value)).1.search.unscoped)]).trace = _
    rw [addTrace_trace, htr6, hflag6]
  · obtain ⟨hflag7, htr7, _⟩ := SearchFlagAt_NewScope st h
      ((st.dbs[h]?).bind gormDB.value) flag hsf
    unfold St.AddForeignKey
    show ((st.NewScope h ((st.dbs[h]?).bind gormDB.value)).2.addTrace
      [.ddl (String.append "addForeignKey:" fk)
        ((st.NewScope h ((st.dbs[h]?).bind gormDB.value)).1.search.unscoped)]).trace = _
    rw [addTrace_trace, htr7, hflag7]
  · obtain ⟨hflag8, htr8, _⟩ := SearchFlagAt_NewScope (st.cloneAlloc r) st.dbs.length
      ((st.dbs[h]?).bind gormDB.value) flag hCA
    unfold St.RemoveForeignKey
    rw [Clone_some st h r hr]
    show (((st.cloneAlloc r).NewScope st.dbs.length
        ((st.dbs[h]?).bind gormDB.value)).2.addTrace
      [.ddl (String.append "removeForeignKey:" fk)
        (((st.cloneAlloc r).NewScope st.dbs.length
          ((st.dbs[h]?).bind gormDB.value)).1.search.unscoped)]).trace = _
    rw [addTrace_trace, htr8, hflag8]
    rfl

/-- The claim's assertion that every DDL statement a schema operation issues
runs on an unscoped scope. -/
def ddlAllUnscoped (tr : List Event) : Bool :=
  tr.all fun e =>
    match e with
    | .ddl _ u => u
    | _ => true

/-- C8 counterexample: DropTable on a handle with default scoping clones
without forcing Unscoped (src lines 658-668 use Clone, not Unscoped), so its
direct DDL statement runs with the soft-delete scoping still in force. -/
theorem DropTable_not_unscoped_cex :
    ddlAllUnscoped (stW.DropTable 0 [.vRec 1]).2.trace = false := by
  decide

/-- C8 witness: CreateTable issues one unscoped DDL statement per model and
no callback chain, while DropTable keeps the receiver's scoping flag,
evaluated on the concrete root handle. -/
theorem Schema_ops_spec_witness :
    (stW.CreateTable 0 [.vRec 1, .vRec 2]).2.trace =
      stW.trace ++ [.ddl "createTable" true, .ddl "createTable" true] ∧
    (stW.DropTable 0 [.vRec 1]).2.trace = stW.trace ++ [.ddl "dropTable" false] :=
  ⟨(Schema_ops_spec stW 0 recW [.vRec 1, .vRec 2] "i" "f" false rfl
      ⟨recW, 0, { limit := 4, unscoped := false }, rfl, rfl, rfl, rfl⟩).1,
   (Schema_ops_spec stW 0 recW [.vRec 1] "i" "f" false rfl
      ⟨recW, 0, { limit := 4, unscoped := false }, rfl, rfl, rfl, rfl⟩).2.2.2.2.1⟩

/-
Save / FirstOrInit / FirstOrCreate (C3, C4).  The dispatch logic is settled
on a parametric single-root state: one handle at index 0 that is its own
parent (as Open sets it up), with symbolic value, connection, ConditionSet,
settings map, registry and external environment.
-/

def mkRec (val : Option GoValue) (er : Option ErrVal) (cn : Conn) : gormDB :=
  { value := val, err := er, rowsAffected := 0, conn := cn,
    blockGlobalUpdate := false, logMode := 0, searchRef := some 0, valuesRef := 0,
    parentRef := 0, callbacksRef := some 0, dialectRef := 0, singularTable := false }

def mkSt (val : Option GoValue) (er : Option ErrVal) (cn : Conn) (s : Search)
    (cell : List (String × GoValue)) (reg : Callback) : St :=
  { dbs := [mkRec val er cn], searches := [s], settings := [cell], cbs := [reg],
    dialects := [{ name := "d", conn := cn }], trace := [] }

/-- C4: FirstOrInit and FirstOrCreate both first run First; when First fails
with the record-not-found sentinel, FirstOrInit initializes the value seeded
with the lookup conditions and the Attrs/Assign values without running the
create chain, while FirstOrCreate additionally runs the full create chain;
when First succeeds, FirstOrInit applies the Assign overrides and
FirstOrCreate runs the update chain exactly when Assign values are present;
when First fails with a non-sentinel error, both return First's result
immediately, with no initialization and no further chain. -/
theorem FirstOrInit_FirstOrCreate_spec (env : Env) (out val : Option GoValue)
    (wh : List GoValue) (cn : Conn) (s : Search) (cell : List (String × GoValue))
    (reg : Callback) (n : Nat) :
    ((env 0 .queries).err = some .recordNotFound →
      ((mkSt val none cn s cell reg).FirstOrInit env 0 out wh).1 = 1 ∧
      ((mkSt val none cn s cell reg).FirstOrInit env 0 out wh).2.trace =
        [.chain .queries reg.queries,
         .initValue (wh.foldl (fun ss w => ss.Where w []) s)]) ∧
    ((env 0 .queries).err = some .recordNotFound → (env 1 .creates).err = none →
      ((mkSt val none cn s cell reg).FirstOrCreate env 0 out wh).2.trace =
        [.chain .queries reg.queries,
         .initValue (wh.foldl (fun ss w => ss.Where w []) s),
         .chain .creates reg.creates]) ∧
    ((env 0 .queries).err = some (.generic n) →
      ((mkSt val none cn s cell reg).FirstOrInit env 0 out wh).1 = 2 ∧
      ((mkSt val none cn s cell reg).FirstOrInit env 0 out wh).2.trace =
        [.chain .queries reg.queries, .bgLog] ∧
      ((mkSt val none cn s cell reg).FirstOrInit env 0 out wh).2.errAt 2 =
        some (.single (.generic n))) ∧
    ((env 0 .queries).err = some (.generic n) →
      ((mkSt val none cn s cell reg).FirstOrCreate env 0 out wh).1 = 2 ∧
      ((mkSt val none cn s cell reg).FirstOrCreate env 0 out wh).2.trace =
        [.chain .queries reg.queries, .bgLog] ∧
      ((mkSt val none cn s cell reg).FirstOrCreate env 0 out wh).2.errAt 2 =
        some (.single (.generic n))) ∧
    ((env 0 .queries).err = none →
      ((mkSt val none cn s cell reg).FirstOrInit env 0 out wh).1 = 1 ∧
      ((mkSt val none cn s cell reg).FirstOrInit env 0 out wh).2.trace =
        [.chain .queries reg.queries, .applyAssign s.assignAttrs]) ∧
    ((env 0 .queries).err = none → s.assignAttrs = [] →
      ((mkSt val none cn s cell reg).FirstOrCreate env 0 out wh).1 = 1 ∧
      ((mkSt val none cn s cell reg).FirstOrCreate env 0 out wh).2.trace =
        [.chain .queries reg.queries]) ∧
    ((env 0 .queries).err = none → ¬ s.assignAttrs = [] →
      (env 1 .updates).err = none →
      ((mkSt val none cn s cell reg).FirstOrCreate env 0 out wh).2.trace =
        [.chain .queries reg.queries, .chain .updates reg.updates]) := by
  refine ⟨?_, ?_, ?_, ?_, ?_, ?_, ?_⟩
  · intro henv
    constructor <;>
    simp [mkSt, mkRec, St.FirstOrInit, St.First, St.NewScope, St.Clone, St.cloneAlloc,
      cloneRec, cloneSearchOf, cloneSettingsOf, cloneDialectOf, St.InstantSet,
      St.callCallbacks, St.chainUsedBy, Callback.chainOf, countChains, St.addError,
      St.addTrace, St.updDb, St.errAt, St.recordNotFoundAt, gormDB.RecordNotFound,
      gormDB.GetErrors, getErrorsVal, errLoop, addErrVal, addErrEvents, errAdd,
      St.searchCellOf, Scope.inlineCondition, St.initScope, St.updatedAttrs,
      listUpd, henv]
  · intro henv hc
    simp [mkSt, mkRec, St.FirstOrCreate, St.First, St.NewScope, St.Clone, St.cloneAlloc,
      cloneRec, cloneSearchOf, cloneSettingsOf, cloneDialectOf, St.InstantSet,
      St.callCallbacks, St.chainUsedBy, Callback.chainOf, countChains, St.addError,
      St.addTrace, St.updDb, St.errAt, St.recordNotFoundAt, gormDB.RecordNotFound,
      gormDB.GetErrors, getErrorsVal, errLoop, addErrVal, addErrEvents, errAdd,
      St.searchCellOf, Scope.inlineCondition, St.initScope, St.updatedAttrs,
      listUpd, henv, hc]
  · intro henv
    refine ⟨?_, ?_, ?_⟩ <;>
    simp [mkSt, mkRec, St.FirstOrInit, St.First, St.NewScope, St.Clone, St.cloneAlloc,
      cloneRec, cloneSearchOf, cloneSettingsOf, cloneDialectOf, St.InstantSet,
      St.callCallbacks, St.chainUsedBy, Callback.chainOf, countChains, St.addError,
      St.addTrace, St.updDb, St.errAt, St.recordNotFoundAt, gormDB.RecordNotFound,
      gormDB.GetErrors, getErrorsVal, errLoop, addErrVal, addErrEvents, errAdd,
      St.searchCellOf, Scope.inlineCondition, St.initScope, St.updatedAttrs,
      listUpd, henv]
  · intro henv
    refine ⟨?_, ?_, ?_⟩ <;>
    simp [mkSt, mkRec, St.FirstOrCreate, St.First, St.NewScope, St.Clone, St.cloneAlloc,
      cloneRec, cloneSearchOf, cloneSettingsOf, cloneDialectOf, St.InstantSet,
      St.callCallbacks, St.chainUsedBy, Callback.chainOf, countChains, St.addError,
      St.addTrace, St.updDb, St.errAt, St.recordNotFoundAt, gormDB.RecordNotFound,
      gormDB.GetErrors, getErrorsVal, errLoop, addErrVal, addErrEvents, errAdd,
      St.searchCellOf, Scope.inlineCondition, St.initScope, St.updatedAttrs,
      listUpd, henv]
  · intro henv
    constructor <;>
    simp [mkSt, mkRec, St.FirstOrInit, St.First, St.NewScope, St.Clone, St.cloneAlloc,
      cloneRec, cloneSearchOf, cloneSettingsOf, cloneDialectOf, St.InstantSet,
      St.callCallbacks, St.chainUsedBy, Callback.chainOf, countChains, St.addError,
      St.addTrace, St.updDb, St.errAt, St.recordNotFoundAt, gormDB.RecordNotFound,
      gormDB.GetErrors, getErrorsVal, errLoop, addErrVal, addErrEvents, errAdd,
      St.searchCellOf, Scope.inlineCondition, St.initScope, St.updatedAttrs,
      listUpd, henv]
  · intro henv ha
    constructor <;>
    simp [mkSt, mkRec, St.FirstOrCreate, St.First, St.NewScope, St.Clone, St.cloneAlloc,
      cloneRec, cloneSearchOf, cloneSettingsOf, cloneDialectOf, St.InstantSet,
      St.callCallbacks, St.chainUsedBy, Callback.chainOf, countChains, St.addError,
      St.addTrace, St.updDb, St.errAt, St.recordNotFoundAt, gormDB.RecordNotFound,
      gormDB.GetErrors, getErrorsVal, errLoop, addErrVal, addErrEvents, errAdd,
      St.searchCellOf, Scope.inlineCondition, St.initScope, St.updatedAttrs,
      listUpd, henv, ha]
  · intro henv ha hu
    simp [mkSt, mkRec, St.FirstOrCreate, St.First, St.NewScope, St.Clone, St.cloneAlloc,
      cloneRec, cloneSearchOf, cloneSettingsOf, cloneDialectOf, St.InstantSet,
      St.callCallbacks, St.chainUsedBy, Callback.chainOf, countChains, St.addError,
      St.addTrace, St.updDb, St.errAt, St.recordNotFoundAt, gormDB.RecordNotFound,
      gormDB.GetErrors, getErrorsVal, errLoop, addErrVal, addErrEvents, errAdd,
      St.searchCellOf, Scope.inlineCondition, St.initScope, St.updatedAttrs,
      listUpd, henv, ha, hu]

/-- A concrete registry for the C3 and C4 witnesses. -/
def cbW : Callback := { creates := ["c"], updates := ["u"], queries := ["q"] }

/-- A concrete environment in which the first query reports not-found and
every other chain run succeeds. -/
def envC4 : Env := fun i k =>
  match i, k with
  | 0, ChainKind.queries => { err := some .recordNotFound }
  | _, _ => {}

/-- C4 witness: on the not-found path, FirstOrCreate runs the query chain,
initializes the value seeded with the inline condition and runs the create
chain, evaluated at concrete inputs. -/
theorem FirstOrInit_FirstOrCreate_spec_witness :
    ((mkSt none none (.plainDB 0) {} [] cbW).FirstOrCreate envC4 0
        (some (.vRec 1)) [.vInt 9]).2.trace =
      [.chain .queries cbW.queries,
       .initValue ([GoValue.vInt 9].foldl (fun ss w => ss.Where w []) {}),
       .chain .creates cbW.creates] :=
  (FirstOrInit_FirstOrCreate_spec envC4 (some (.vRec 1)) none [.vInt 9]
    (.plainDB 0) {} [] cbW 0).2.1 rfl rfl

/-- C3: Save runs the update callback chain when the value's primary key is
non-zero; when that update completes without error but reports zero rows
affected it falls back to FirstOrCreate on the value (query chain, then the
create chain when the row is absent); when the update reports rows or fails
no fallback happens; when the primary key is zero Save runs the create
chain. -/
theorem Save_spec (env : Env) (v : GoValue) (val : Option GoValue) (cn : Conn)
    (s : Search) (cell : List (String × GoValue)) (reg : Callback) (n : Nat) :
    (PrimaryKeyZero (some v) = true → (env 0 .creates).err = none →
      ((mkSt val none cn s cell reg).Save env 0 v).1 = 1 ∧
      ((mkSt val none cn s cell reg).Save env 0 v).2.trace =
        [.chain .creates reg.creates]) ∧
    (PrimaryKeyZero (some v) = false → (env 0 .updates).err = none →
      (env 0 .updates).rows ≠ 0 →
      ((mkSt val none cn s cell reg).Save env 0 v).1 = 1 ∧
      ((mkSt val none cn s cell reg).Save env 0 v).2.trace =
        [.chain .updates reg.updates] ∧
      ((mkSt val none cn s cell reg).Save env 0 v).2.rowsAt 1 =
        (env 0 .updates).rows) ∧
    (PrimaryKeyZero (some v) = false →
      (env 0 .updates).err = some (.generic n) →
      ((mkSt val none cn s cell reg).Save env 0 v).1 = 1 ∧
      ((mkSt val none cn s cell reg).Save env 0 v).2.trace =
        [.chain .updates reg.updates, .bgLog]) ∧
    (PrimaryKeyZero (some v) = false → (env 0 .updates).err = none →
      (env 0 .updates).rows = 0 →
      (env 1 .queries).err = some .recordNotFound → (env 2 .creates).err = none →
      ((mkSt val none cn s cell reg).Save env 0 v).2.trace =
        [.chain .updates reg.updates, .chain .queries reg.queries,
         .initValue {}, .chain .creates reg.creates]) := by
  refine ⟨?_, ?_, ?_, ?_⟩
  · intro hpk hce
    constructor <;>
    simp [mkSt, mkRec, St.Save, St.NewScope, St.Clone, St.cloneAlloc,
      cloneRec, cloneSearchOf, cloneSettingsOf, cloneDialectOf,
      St.callCallbacks, St.chainUsedBy, Callback.chainOf, countChains, St.addError,
      St.addTrace, St.updDb, St.errAt, St.rowsAt,
      getErrorsVal, addErrVal, addErrEvents, errAdd,
      St.searchCellOf, listUpd, hpk, hce]
  · intro hpk hue hrow
    refine ⟨?_, ?_, ?_⟩ <;>
    simp [mkSt, mkRec, St.Save, St.NewScope, St.Clone, St.cloneAlloc,
      cloneRec, cloneSearchOf, cloneSettingsOf, cloneDialectOf,
      St.callCallbacks, St.chainUsedBy, Callback.chainOf, countChains, St.addError,
      St.addTrace, St.updDb, St.errAt, St.rowsAt,
      getErrorsVal, addErrVal, addErrEvents, errAdd,
      St.searchCellOf, listUpd, hpk, hue, hrow]
  · intro hpk hue
    constructor <;>
    simp [mkSt, mkRec, St.Save, St.NewScope, St.Clone, St.cloneAlloc,
      cloneRec, cloneSearchOf, cloneSettingsOf, cloneDialectOf,
      St.callCallbacks, St.chainUsedBy, Callback.chainOf, countChains, St.addError,
      St.addTrace, St.updDb, St.errAt, St.rowsAt,
      getErrorsVal, addErrVal, addErrEvents, errAdd,
      St.searchCellOf, listUpd, hpk, hue]
  · intro hpk hue hrow hq hc2
    simp [mkSt, mkRec, St.Save, St.NewDB, St.FirstOrCreate, St.First, St.NewScope,
      St.Clone, St.cloneAlloc, cloneRec, cloneSearchOf, cloneSettingsOf,
      cloneDialectOf, St.InstantSet, St.callCallbacks, St.chainUsedBy,
      Callback.chainOf, countChains, St.addError, St.addTrace, St.updDb, St.errAt,
      St.rowsAt, St.recordNotFoundAt, gormDB.RecordNotFound, gormDB.GetErrors,
      getErrorsVal, errLoop, addErrVal, addErrEvents, errAdd, St.searchCellOf,
      Scope.inlineCondition, St.initScope, listUpd, hpk, hue, hrow, hq, hc2]

/-- A concrete environment in which the update chain matches no row, the
subsequent query reports not-found and the create chain succeeds. -/
def envC3 : Env := fun i k =>
  match i, k with
  | 1, ChainKind.queries => { err := some .recordNotFound }
  | _, _ => {}

/-- C3 witness: Save on a value with non-zero primary key runs the update
chain, and with zero rows affected falls back to FirstOrCreate (query chain
then create chain), evaluated at concrete inputs. -/
theorem Save_spec_witness :
    ((mkSt none none (.plainDB 0) {} [] cbW).Save envC3 0 (.vRec 7)).2.trace =
      [.chain .updates cbW.updates, .chain .queries cbW.queries,
       .initValue {}, .chain .creates cbW.creates] :=
  (Save_spec envC3 (.vRec 7) none (.plainDB 0) {} [] cbW 0).2.2.2 rfl rfl rfl rfl rfl
